import Mathlib

/-!
Verification development for the RDW open-data viewer repository.

Part 1 embeds the delta-aware downloader of src/download-rdw-data-smart.js:
the staleness probe (checkRemoteHeaders), the per-dataset download routine
(downloadDataset) and the sequential pass (main). HTTP dates are modelled by
their parsed value: `some t` is a valid date, `none` models a missing header
or an unparseable date string (a JavaScript Invalid Date, whose comparisons
are all false because they go through NaN). Header strings that may be absent
(`undefined` in JavaScript) are modelled as `Option String`, so that the
JavaScript strict-equality test on possibly-undefined etags is Option
equality.
-/

/-- Headers extracted by checkRemoteHeaders from the (possibly redirected)
HEAD response: last-modified, etag, content-length. -/
structure RemoteHeaders where
  lastModified : Option Int
  etag : Option String
  contentLength : Option Nat
deriving Repr, DecidableEq

/-- One stored entry of data/.download-metadata.json, as written by the
downloader on a finished transfer. -/
structure MetaEntry where
  lastModified : Option Int
  etag : Option String
  size : Nat
  downloadedAt : Int
deriving Repr, DecidableEq

/-- How the streaming of a response body into the output file ends: the
write stream emits finish (all bytes flushed, file closed), or it emits an
error with a message. -/
inductive StreamOutcome where
  | finished (bytes : Nat)
  | fileError (msg : String)
deriving Repr, DecidableEq

/-- One HTTP response as seen by the download code: status code, headers,
and what streaming its body into the file would produce. -/
structure HttpResponse where
  statusCode : Nat
  headers : RemoteHeaders
  stream : StreamOutcome
deriving Repr, DecidableEq

/-- Environment for one downloadDataset call: whether the output file already
exists, the result of the HEAD probe (checkRemoteHeaders), the first GET
response on the canonical URL, and the GET response on the redirect location
(consulted only when the first response is a 301/302). `Except.error` models
a network error (promise rejection). -/
structure SyncEnv where
  fileExists : Bool
  probe : Except String RemoteHeaders
  firstResponse : Except String HttpResponse
  redirectResponse : Except String HttpResponse
  now : Int
deriving Repr

/-- Per-dataset outcome of downloadDataset: resolved with skipped, resolved
with a byte count, or rejected (counted as failed by main). -/
inductive Outcome where
  | skipped
  | success (bytes : Nat)
  | failed (msg : String)
deriving Repr, DecidableEq

/-- Result of one downloadDataset call, together with the observable effects
the claims talk about: number of GET (body) requests issued, number of fetch
attempts performed, whether the probe-failure warning was logged, the
metadata entry written for this dataset (none: metadata untouched), and
whether fs.unlink was called on the output path. -/
structure SyncResult where
  outcome : Outcome
  getCount : Nat
  attempts : Nat
  warned : Bool
  metadataUpdate : Option MetaEntry
  fileDeleted : Bool
deriving Repr, DecidableEq

/-- The comparison remoteModified <= localModified of download-rdw-data-smart.js
line 152, where both sides are new Date(header): any invalid date makes the
comparison false (NaN semantics). -/
def dateNotNewer : Option Int → Option Int → Bool
  | some r, some l => decide (r ≤ l)
  | _, _ => false

/-- The finish handler of downloadDataset (lines 191-205): on finish the file
is closed and a metadata entry with the response headers, the accumulated
byte count and the current time is saved; on a file error the partial file
is unlinked and the promise rejected (lines 207-210). -/
def handleResponse (now : Int) (resp : HttpResponse) : Outcome × Option MetaEntry × Bool :=
  match resp.stream with
  | .finished bytes =>
      (.success bytes, some ⟨resp.headers.lastModified, resp.headers.etag, bytes, now⟩, false)
  | .fileError msg => (.failed msg, none, true)

/-- The fetch phase of downloadDataset (lines 167-223): one GET on the
canonical URL; a 301/302 answer triggers exactly one GET on the redirect
location whose response is handed to handleResponse without any status
check; a 200 answer is handled directly; any other status rejects
immediately. There is no retry: exactly one attempt is made. -/
def fetchPhase (env : SyncEnv) : SyncResult :=
  match env.firstResponse with
  | .error msg =>
      { outcome := .failed msg, getCount := 1, attempts := 1, warned := false,
        metadataUpdate := none, fileDeleted := false }
  | .ok resp =>
      if resp.statusCode = 302 ∨ resp.statusCode = 301 then
        match env.redirectResponse with
        | .error msg =>
            { outcome := .failed msg, getCount := 2, attempts := 1, warned := false,
              metadataUpdate := none, fileDeleted := false }
        | .ok resp2 =>
            let (o, u, d) := handleResponse env.now resp2
            { outcome := o, getCount := 2, attempts := 1, warned := false,
              metadataUpdate := u, fileDeleted := d }
      else if resp.statusCode = 200 then
        let (o, u, d) := handleResponse env.now resp
        { outcome := o, getCount := 1, attempts := 1, warned := false,
          metadataUpdate := u, fileDeleted := d }
      else
        { outcome := .failed ("HTTP " ++ toString resp.statusCode), getCount := 1,
          attempts := 1, warned := false, metadataUpdate := none, fileDeleted := false }

/-- downloadDataset of download-rdw-data-smart.js (lines 130-224): when the
file exists the HEAD probe runs; with a stored entry whose date is not older
and whose etag matches strictly, the dataset is skipped with no GET; a probe
rejection logs a warning and falls through to the fetch; otherwise the fetch
phase runs. -/
def downloadDataset (env : SyncEnv) (stored : Option MetaEntry) : SyncResult :=
  if env.fileExists then
    match env.probe with
    | .ok h =>
        match stored with
        | some m =>
            if dateNotNewer h.lastModified m.lastModified && (h.etag == m.etag) then
              { outcome := .skipped, getCount := 0, attempts := 0, warned := false,
                metadataUpdate := none, fileDeleted := false }
            else fetchPhase env
        | none => fetchPhase env
    | .error _ => { fetchPhase env with warned := true }
  else fetchPhase env

/-- Applying the metadata write of one downloadDataset call to the store
(metadata[dataset.name] = ...; saveMetadata(metadata)). -/
def applyUpdate (store : String → Option MetaEntry) (name : String) (r : SyncResult) :
    String → Option MetaEntry :=
  match r.metadataUpdate with
  | some e => fun n => if n = name then some e else store n
  | none => store

/-- The sequential pass of main (lines 246-258): datasets are processed in
order, each call reading the store left by the previous ones; outcomes are
collected per dataset name. -/
def runPass : List (String × SyncEnv) → (String → Option MetaEntry) →
    ((String → Option MetaEntry) × List (String × Outcome))
  | [], store => (store, [])
  | (name, env) :: rest, store =>
      let r := downloadDataset env (store name)
      let res := runPass rest (applyUpdate store name r)
      (res.1, (name, r.outcome) :: res.2)

/-- The response whose body downloadDataset actually streams to the file:
the redirect response after a 301/302 first answer, the first response when
it is a 200, nothing otherwise. -/
def handledResponse (env : SyncEnv) : Option HttpResponse :=
  match env.firstResponse with
  | .error _ => none
  | .ok resp =>
      if resp.statusCode = 302 ∨ resp.statusCode = 301 then
        match env.redirectResponse with
        | .ok resp2 => some resp2
        | .error _ => none
      else if resp.statusCode = 200 then some resp
      else none

/-- Whether an outcome is a resolved download (not skipped, not failed). -/
def Outcome.isSuccess : Outcome → Bool
  | .success _ => true
  | _ => false

/-- A pass recorded a completed download for this dataset name. -/
def passSucceeded (results : List (String × Outcome)) (name : String) : Prop :=
  ∃ p ∈ results, p.1 = name ∧ p.2.isSuccess = true

/-!
Part 2 embeds the advanced pivot compiler of src/download-rdw-data.js
(app.post of /pivot-advanced, lines 796-991). The compiler builds a SQL
string from the request; the embedding factors each pushed condition string
through a structured constructor (Cond) and a rendering function whose
output is exactly the template string the code pushes, so that both the
generated text and its meaning can be reasoned about.
-/

/-- The single-quote character, written by code point to keep source plain. -/
def sqc : Char := Char.ofNat 39

/-- The single-quote as a one-character string. -/
def sqS : String := String.singleton sqc

/-- Double-quoted SQL identifier, as in the template literals of the code. -/
def quoteIdent (c : String) : String := "\"" ++ c ++ "\""

/-- escapeValue of line 844: v.replace of every single quote by two single
quotes, on the character list. -/
def escAux : List Char → List Char
  | [] => []
  | c :: cs => if c = sqc then sqc :: sqc :: escAux cs else c :: escAux cs

/-- escapeValue as a string function. -/
def escapeValue (v : String) : String := String.mk (escAux v.data)

/-- Longest digit run at the head of a character list, with the rest. -/
def takeDigits : List Char → List Char × List Char
  | [] => ([], [])
  | c :: cs =>
      if c.isDigit then
        let r := takeDigits cs
        (c :: r.1, r.2)
      else ([], c :: cs)

/-- The optional leading sign of a number literal, and the rest. -/
def signSplit (l : List Char) : List Char × List Char :=
  match l with
  | c :: cs => if c = '-' ∨ c = '+' then ([c], cs) else ([], l)
  | [] => ([], [])

/-- The optional fraction (dot and digit run) at the head, and the rest. -/
def fracSplit (l : List Char) : List Char × List Char :=
  match l with
  | c :: cs => if c = '.' then (c :: (takeDigits cs).1, (takeDigits cs).2) else ([], l)
  | [] => ([], [])

/-- Models JavaScript parseFloat: optional sign, digit run, optional dot
and digit run; none when no digits are found (NaN). Exponents and the exact
decimal re-rendering of the parsed number are not modelled; no claim proved
here depends on them. -/
def jsParseFloatChars (l : List Char) : Option (List Char) :=
  if (takeDigits (signSplit l).2).1 = [] ∧
      ((fracSplit (takeDigits (signSplit l).2).2).1 = [] ∨
        (fracSplit (takeDigits (signSplit l).2).2).1 = ['.']) then none
  else
    some ((signSplit l).1 ++ (takeDigits (signSplit l).2).1 ++
      (fracSplit (takeDigits (signSplit l).2).2).1)

/-- The text interpolated for a numeric filter bound: the parsed number, or
NaN when parseFloat fails. -/
def jsParseFloatStr (v : String) : String :=
  match jsParseFloatChars v.data with
  | some l => String.mk l
  | none => "NaN"

/-- Structured form of the predicate strings pushed into filterConditions by
the /pivot-advanced handler: one constructor per push site. -/
inductive Cond where
  | eqC (col v : String)
  | neC (col v : String)
  | gtC (col v : String)
  | ltC (col v : String)
  | geC (col v : String)
  | leC (col v : String)
  | betweenC (col v v2 : String)
  | containsC (col v : String)
  | startsC (col v : String)
  | endsC (col v : String)
  | inC (col : String) (vs : List String)
  | notNullC (col : String)
deriving Repr, DecidableEq

/-- The join of a string list with a separator, as JavaScript Array.join
(equal to String.intercalate). -/
def joinSep (s : String) : List String → String
  | [] => ""
  | [a] => a
  | a :: b :: rest => a ++ s ++ joinSep s (b :: rest)

/-- Rendering of a structured condition: exactly the template string the
code pushes for that operator (lines 846-896). -/
def renderCond : Cond → String
  | .eqC col v => quoteIdent col ++ " = " ++ sqS ++ escapeValue v ++ sqS
  | .neC col v => quoteIdent col ++ " != " ++ sqS ++ escapeValue v ++ sqS
  | .gtC col v => "TRY_CAST(" ++ quoteIdent col ++ " AS DOUBLE) > " ++ jsParseFloatStr v
  | .ltC col v => "TRY_CAST(" ++ quoteIdent col ++ " AS DOUBLE) < " ++ jsParseFloatStr v
  | .geC col v => "TRY_CAST(" ++ quoteIdent col ++ " AS DOUBLE) >= " ++ jsParseFloatStr v
  | .leC col v => "TRY_CAST(" ++ quoteIdent col ++ " AS DOUBLE) <= " ++ jsParseFloatStr v
  | .betweenC col v v2 =>
      "TRY_CAST(" ++ quoteIdent col ++ " AS DOUBLE) BETWEEN " ++ jsParseFloatStr v ++
        " AND " ++ jsParseFloatStr v2
  | .containsC col v => quoteIdent col ++ " LIKE " ++ sqS ++ "%" ++ escapeValue v ++ "%" ++ sqS
  | .startsC col v => quoteIdent col ++ " LIKE " ++ sqS ++ escapeValue v ++ "%" ++ sqS
  | .endsC col v => quoteIdent col ++ " LIKE " ++ sqS ++ "%" ++ escapeValue v ++ sqS
  | .inC col vs =>
      quoteIdent col ++ " IN (" ++
        joinSep ", " (vs.map (fun v => sqS ++ escapeValue v ++ sqS)) ++ ")"
  | .notNullC col =>
      quoteIdent col ++ " IS NOT NULL AND " ++ quoteIdent col ++ " != " ++ sqS ++ sqS

/-- One filter rule of the new request format (lines 835-841): field,
operator (empty models an absent operator, defaulted to equals), value, and
the optional second bound. -/
structure FilterRule where
  field : String
  operator : String
  value : String
  value2 : Option String
deriving Repr, DecidableEq

/-- The two accepted filter payload shapes: the rule array, or the legacy
object mapping a column to a value list. -/
inductive Filters where
  | rules (l : List FilterRule)
  | legacy (l : List (String × List String))
deriving Repr, DecidableEq

/-- One aggregation request: column and aggregation name. -/
structure ValueSpec where
  column : String
  aggregation : String
deriving Repr, DecidableEq

/-- The /pivot-advanced request body. -/
structure PivotRequest where
  rows : List String
  columns : List String
  values : List ValueSpec
  filters : Filters
deriving Repr

/-- Conditions contributed by one rule (the switch of lines 846-879): a rule
with empty field or empty value is skipped before the switch; between without
a truthy value2 pushes nothing; an unknown operator falls through the switch
and pushes nothing. -/
def ruleCond (f : FilterRule) : List Cond :=
  if f.field = "" ∨ f.value = "" then []
  else
    let op := if f.operator = "" then "equals" else f.operator
    if op = "equals" then [.eqC f.field f.value]
    else if op = "not_equals" then [.neC f.field f.value]
    else if op = "greater_than" then [.gtC f.field f.value]
    else if op = "less_than" then [.ltC f.field f.value]
    else if op = "greater_or_equal" then [.geC f.field f.value]
    else if op = "less_or_equal" then [.leC f.field f.value]
    else if op = "between" then
      match f.value2 with
      | some v2 => if v2 = "" then [] else [.betweenC f.field f.value v2]
      | none => []
    else if op = "contains" then [.containsC f.field f.value]
    else if op = "starts_with" then [.startsC f.field f.value]
    else if op = "ends_with" then [.endsC f.field f.value]
    else []

/-- filterConditions contributed by the filters payload (lines 834-890). -/
def filterConds : Filters → List Cond
  | .rules l => l.flatMap ruleCond
  | .legacy l => l.flatMap (fun p => if p.2.isEmpty then [] else [.inC p.1 p.2])

/-- ASCII uppercase of one character, modelling the JavaScript
toUpperCase call on the aggregation names compared in the switch. -/
def upChar (c : Char) : Char :=
  if 'a' ≤ c ∧ c ≤ 'z' then Char.ofNat (c.toNat - 32) else c

/-- ASCII uppercase of a string. -/
def upStr (s : String) : String := String.mk (s.data.map upChar)

/-- The aggregate expression for one value spec (lines 906-933). -/
def aggFuncStr (column aggregation : String) : String :=
  let u := upStr aggregation
  if u = "COUNT" then "COUNT(" ++ quoteIdent column ++ ")"
  else if u = "COUNT_DISTINCT" then "COUNT(DISTINCT " ++ quoteIdent column ++ ")"
  else if u = "SUM" then "SUM(TRY_CAST(" ++ quoteIdent column ++ " AS DOUBLE))"
  else if u = "AVG" then "AVG(TRY_CAST(" ++ quoteIdent column ++ " AS DOUBLE))"
  else if u = "MIN" then "MIN(TRY_CAST(" ++ quoteIdent column ++ " AS DOUBLE))"
  else if u = "MAX" then "MAX(TRY_CAST(" ++ quoteIdent column ++ " AS DOUBLE))"
  else "COUNT(DISTINCT " ++ quoteIdent column ++ ")"

/-- The values list after the empty-values default of lines 811-814. -/
def effValues (req : PivotRequest) : List ValueSpec :=
  if req.values.isEmpty then [⟨"kenteken", "COUNT_DISTINCT"⟩] else req.values

/-- The comma-separated aggregate select list with value_i aliases. -/
def selectValuesStr (vals : List ValueSpec) : String :=
  joinSep ", "
    (vals.enum.map (fun p => aggFuncStr p.2.column p.2.aggregation ++ " as value_" ++ toString p.1))

/-- The WHERE clause: empty when no condition was pushed, the AND-joined
rendered conditions otherwise (lines 898-900). -/
def whereClauseStr (conds : List Cond) : String :=
  if conds.isEmpty then "" else "WHERE " ++ joinSep " AND " (conds.map renderCond)

/-- The compiled pivot query: dimension list, pushed conditions, effective
value specs, and the final SQL text. -/
structure CompiledPivot where
  dims : List String
  conds : List Cond
  valuesUsed : List ValueSpec
  sql : String
deriving Repr

/-- The compilation body of /pivot-advanced (lines 828-948): dimension list
is rows then columns; every dimension contributes a not-null-not-empty
condition after the filter conditions; the SQL is assembled from the select,
where, group-by and order-by pieces with the fixed LIMIT 10000. Whitespace
of the multi-line template literal is normalised to single spaces. -/
def compilePivot (req : PivotRequest) : CompiledPivot :=
  let vals := effValues req
  let dims := req.rows ++ req.columns
  let conds := filterConds req.filters ++ dims.map Cond.notNullC
  let selectDimensions := joinSep ", " (dims.map quoteIdent)
  let selectValues := selectValuesStr vals
  let groupBy := joinSep ", " (dims.map quoteIdent)
  let sql :=
    "SELECT " ++ selectDimensions ++
      (if selectValues = "" then "" else ", " ++ selectValues) ++
      " FROM view_unified " ++ whereClauseStr conds ++
      " GROUP BY " ++ groupBy ++
      " ORDER BY " ++ ((selectValues.splitOn " as ").headD "") ++ " DESC LIMIT 10000"
  ⟨dims, conds, vals, sql⟩

/-- The /pivot-advanced handler up to query compilation: the empty-dimension
rejection of lines 805-809 happens before anything is compiled; otherwise
the request is compiled. -/
def pivotAdvanced (req : PivotRequest) : Except String CompiledPivot :=
  if req.rows.isEmpty && req.columns.isEmpty then
    Except.error "At least one row or column dimension is required"
  else Except.ok (compilePivot req)

/-!
Part 3a: a single-quote scanner over generated query text. The skeleton of a
string keeps everything outside single-quoted SQL literals plus the literal
delimiters, and drops the literal bodies, treating a doubled quote inside a
literal as an escaped character. Two queries with the same skeleton differ
only inside string literals, which is the shape of the injection-safety
claim.
-/

/-- Quote scanner: the Bool is the in-literal state. Outside a literal every
character is kept; inside a literal characters are dropped, a doubled quote
is consumed as an escaped quote, and a lone quote closes the literal. -/
def skelAux : Bool → List Char → List Char
  | _, [] => []
  | false, c :: cs => if c = sqc then c :: skelAux true cs else c :: skelAux false cs
  | true, c :: cs =>
      if c = sqc then
        match cs with
        | [] => [c]
        | c2 :: cs2 => if c2 = sqc then skelAux true cs2 else c :: skelAux false (c2 :: cs2)
      else skelAux true cs

/-- The quote skeleton of a query string. -/
def sqlSkeleton (s : String) : List Char := skelAux false s.data

/-- No single quote occurs in the string. -/
@[reducible] def NoQuote (s : String) : Prop := sqc ∉ s.data

/-- The head of the list, if any, is not a single quote: a scanner that has
just closed a literal does not treat it as a reopening escape. -/
def headSafeB : List Char → Bool
  | [] => true
  | c :: _ => !(c == sqc)

/-- The string contributes sk to the quote skeleton and hands the scanner
back in the outside-literal state, whatever quote-safe tail follows. -/
def SegContrib (s : String) (sk : List Char) : Prop :=
  ∀ rest, headSafeB rest = true →
    skelAux false (s.data ++ rest) = sk ++ skelAux false rest

/-- The effective operator of a rule (an absent operator defaults to
equals). -/
def effOp (f : FilterRule) : String := if f.operator = "" then "equals" else f.operator

/-- The operators whose compiled predicate embeds the rule value inside a
single-quoted string literal. -/
def stringOpP (op : String) : Prop :=
  op = "equals" ∨ op = "not_equals" ∨ op = "contains" ∨
    op = "starts_with" ∨ op = "ends_with"

/-- Two rules that differ at most in the value of a string-literal
operator: same field, operator and second bound, the same inertness, and
equal values whenever the value is not embedded as a string literal. -/
def quoteVariant (f1 f2 : FilterRule) : Prop :=
  f1.field = f2.field ∧ f1.operator = f2.operator ∧ f1.value2 = f2.value2 ∧
    (f1.value = "" ↔ f2.value = "") ∧ (¬ stringOpP (effOp f1) → f1.value = f2.value)

/-- Two conditions with one common skeleton contribution. -/
def CondSk (c1 c2 : Cond) : Prop :=
  ∃ sk, SegContrib (renderCond c1) sk ∧ SegContrib (renderCond c2) sk

/-!
Part 3b: evaluation of the structured conditions over one row of the unified
view, a row being an assignment of an optional text value to each column
(none is SQL NULL). Numeric operators go through a decimal-to-rational
reading of TRY_CAST and of the parsed bound; any NULL or unparseable side
makes the comparison false, matching SQL three-valued logic collapsing to
"row not matched". The exact float formatting of the engine is irrelevant to
the claims proved.
-/

/-- Decimal digit run to a natural number. -/
def digitsToNat (l : List Char) : Nat := l.foldl (fun n c => 10 * n + (c.toNat - 48)) 0

/-- Reading a text value as a rational: optional sign, digits, optional
fraction; none when nothing numeric is present. -/
def jsToRat (v : String) : Option ℚ :=
  let l := v.data
  let sgn : Bool × List Char :=
    match l with
    | c :: cs => if c = '-' then (true, cs) else if c = '+' then (false, cs) else (false, l)
    | [] => (false, [])
  let ip := takeDigits sgn.2
  let fp : List Char × List Char :=
    match ip.2 with
    | c :: cs => if c = '.' then takeDigits cs else ([], [])
    | [] => ([], [])
  if ip.1 = [] ∧ fp.1 = [] then none
  else
    let q : ℚ := (digitsToNat (ip.1 ++ fp.1) : ℚ) / ((10 : ℚ) ^ fp.1.length)
    some (if sgn.1 then -q else q)

/-- Substring test on character lists. -/
def infixOfB : List Char → List Char → Bool
  | n, [] => n.isEmpty
  | n, c :: cs => n.isPrefixOf (c :: cs) || infixOfB n cs

/-- Comparison of two optional rationals: false unless both are present. -/
def qCmpB (f : ℚ → ℚ → Bool) (a b : Option ℚ) : Bool :=
  match a, b with
  | some x, some y => f x y
  | _, _ => false

/-- Truth of one structured condition on one row. -/
def evalCond (row : String → Option String) : Cond → Bool
  | .eqC col v => match row col with | some s => s == v | none => false
  | .neC col v => match row col with | some s => !(s == v) | none => false
  | .gtC col v => qCmpB (fun x y => decide (y < x)) ((row col).bind jsToRat) (jsToRat v)
  | .ltC col v => qCmpB (fun x y => decide (x < y)) ((row col).bind jsToRat) (jsToRat v)
  | .geC col v => qCmpB (fun x y => decide (y ≤ x)) ((row col).bind jsToRat) (jsToRat v)
  | .leC col v => qCmpB (fun x y => decide (x ≤ y)) ((row col).bind jsToRat) (jsToRat v)
  | .betweenC col v v2 =>
      match (row col).bind jsToRat, jsToRat v, jsToRat v2 with
      | some x, some a, some b => decide (a ≤ x ∧ x ≤ b)
      | _, _, _ => false
  | .containsC col v => match row col with | some s => infixOfB v.data s.data | none => false
  | .startsC col v => match row col with | some s => v.data.isPrefixOf s.data | none => false
  | .endsC col v => match row col with | some s => v.data.isSuffixOf s.data | none => false
  | .inC col vs => match row col with | some s => vs.contains s | none => false
  | .notNullC col => match row col with | some s => !(s == "") | none => false

/-- Truth of the whole WHERE conjunction on one row. -/
def evalWhere (row : String → Option String) (conds : List Cond) : Bool :=
  conds.all (evalCond row)

/-!
Part 3c: the single-dimension unified-view endpoint of src/download-rdw-data.js
(app.get of /unified/:column, lines 642-723), restricted to the non-pivot
operations. The two SQL texts are reproduced, and their meaning is given on
the projection of view_unified onto the queried column: a list of optional
text values, one per row.
-/

/-- The SQL built for operation unique (lines 679-685), whitespace
normalised. -/
def uniqueSql (column : String) (limitNum : Nat) : String :=
  "SELECT DISTINCT " ++ quoteIdent column ++ " FROM view_unified WHERE " ++
    quoteIdent column ++ " IS NOT NULL AND " ++ quoteIdent column ++ " != " ++ sqS ++ sqS ++
    " ORDER BY " ++ quoteIdent column ++ " LIMIT " ++ toString limitNum

/-- The SQL built for operation count (lines 687-693), whitespace
normalised: no WHERE clause at all. -/
def countSql (column : String) (limitNum : Nat) : String :=
  "SELECT " ++ quoteIdent column ++ ", COUNT(*) as count FROM view_unified GROUP BY " ++
    quoteIdent column ++ " ORDER BY count DESC LIMIT " ++ toString limitNum

/-- The predicate of the unique query on one value: IS NOT NULL AND != two
quotes. -/
def keepValue : Option String → Bool
  | none => false
  | some s => !(s == "")

/-- Ascending order used for ORDER BY column (NULLs first; the exact
collation does not matter to the claims proved). -/
def osLe (a b : Option String) : Bool :=
  match a, b with
  | none, _ => true
  | some _, none => false
  | some x, some y => !(compare x y == Ordering.gt)

/-- Insertion into a sorted list under a boolean order. -/
def insertBy {α : Type} (le : α → α → Bool) (a : α) : List α → List α
  | [] => [a]
  | b :: bs => if le a b then a :: b :: bs else b :: insertBy le a bs

/-- Insertion sort under a boolean order, modelling ORDER BY (the engine
order of equal keys is unspecified, so any sort represents it). -/
def sortBy {α : Type} (le : α → α → Bool) : List α → List α
  | [] => []
  | a :: as => insertBy le a (sortBy le as)

/-- Result rows of the unique query on the column projection: filter, then
distinct, then order, then the row cap. -/
def uniqueValues (t : List (Option String)) (limitNum : Nat) : List (Option String) :=
  (sortBy osLe ((t.filter keepValue).dedup)).take limitNum

/-- The groups of the count query: every distinct value of the column,
including NULL and the empty string, with its row count. -/
def countGroups (t : List (Option String)) : List (Option String × Nat) :=
  t.dedup.map (fun k => (k, t.count k))

/-- Descending-count order of ORDER BY count DESC. -/
def byCountDesc (p q : Option String × Nat) : Bool := decide (q.2 ≤ p.2)

/-- Result rows of the count query: group, order by count descending, cap. -/
def countResult (t : List (Option String)) (limitNum : Nat) : List (Option String × Nat) :=
  (sortBy byCountDesc (countGroups t)).take limitNum

/-!
Part 3d: the download manager of the Next.js app (downloadDataset of
lib/download-manager.ts, whose source is embedded in the repository snapshot
after src/rdw-app/app/viewer/page.tsx) and the server-sent-event route of
src/rdw-app/app/api/download/route.ts (POST, lines 20-152). The manager
resolves every path (it never rejects); each in-flight state change is
reported through the onProgress callback before the returned promise
resolves, which the embedding captures by returning the emitted progress
list alongside the result.
-/

/-- One response in the manager fetch: status, whether a redirect location
header is present, headers, the data chunk sizes delivered, and the error of
the file stream when it does not finish cleanly (none: finish). -/
structure DmResponse where
  statusCode : Nat
  hasLocation : Bool
  headers : RemoteHeaders
  chunks : List Nat
  streamError : Option String
deriving Repr, DecidableEq

/-- Environment for one manager downloadDataset call. -/
structure DmEnv where
  fileExists : Bool
  probe : Except String RemoteHeaders
  firstResponse : Except String DmResponse
  redirectResponse : Except String DmResponse
  now : Int
deriving Repr

/-- The status values of DownloadProgress in the manager. -/
inductive DmStatus where
  | checking
  | downloading
  | completed
  | skipped
  | failed
deriving Repr, DecidableEq

/-- One DownloadProgress callback payload. The progress percentage is
modelled as an exact rational. -/
structure DmProgress where
  dataset : String
  status : DmStatus
  progress : ℚ
  downloaded : Nat
  total : Nat
  error : Option String
deriving Repr, DecidableEq

/-- The manager result shape: success flag, skipped flag, optional error. -/
structure DmResult where
  success : Bool
  skipped : Bool
  error : Option String
deriving Repr, DecidableEq

/-- The downloading progress events emitted by the data listener: one per
chunk, carrying the cumulative byte count. -/
def chunkEvents (name : String) (total : Nat) : List Nat → Nat → List DmProgress
  | [], _ => []
  | c :: cs, acc =>
      let d := acc + c
      ⟨name, .downloading, if 0 < total then ((d : ℚ) * 100) / (total : ℚ) else 0, d, total, none⟩ ::
        chunkEvents name total cs d

/-- The manager handleResponse: an initial downloading event with totals,
one event per chunk, then either the completed event with a metadata write,
or the failed event after unlinking the partial file. -/
def dmHandleResponse (name : String) (now : Int) (resp : DmResponse) :
    List DmProgress × DmResult × Option MetaEntry :=
  match resp.streamError with
  | none =>
      (DmProgress.mk name .downloading 0 0 (resp.headers.contentLength.getD 0) none ::
          (chunkEvents name (resp.headers.contentLength.getD 0) resp.chunks 0 ++
            [⟨name, .completed, 100, resp.chunks.sum, resp.headers.contentLength.getD 0, none⟩]),
        ⟨true, false, none⟩,
        some ⟨resp.headers.lastModified, resp.headers.etag, resp.chunks.sum, now⟩)
  | some msg =>
      (DmProgress.mk name .downloading 0 0 (resp.headers.contentLength.getD 0) none ::
          (chunkEvents name (resp.headers.contentLength.getD 0) resp.chunks 0 ++
            [⟨name, .failed, 0, 0, 0, some msg⟩]),
        ⟨false, false, some msg⟩, none)

/-- The manager fetch: the same one-hop redirect handling as the smart
downloader, resolving a failure result instead of rejecting (including the
missing-location check); paths that fail before a response body emit no
progress event. -/
def dmFetch (name : String) (env : DmEnv) : List DmProgress × DmResult × Option MetaEntry :=
  match env.firstResponse with
  | .error msg => ([], ⟨false, false, some msg⟩, none)
  | .ok resp =>
      if resp.statusCode = 302 ∨ resp.statusCode = 301 then
        if !resp.hasLocation then ([], ⟨false, false, some "Redirect without location"⟩, none)
        else
          match env.redirectResponse with
          | .error msg => ([], ⟨false, false, some msg⟩, none)
          | .ok resp2 => dmHandleResponse name env.now resp2
      else if resp.statusCode = 200 then dmHandleResponse name env.now resp
      else ([], ⟨false, false, some ("HTTP " ++ toString resp.statusCode)⟩, none)

/-- The skip decision and dispatch of the manager downloadDataset: skip via
the probe and stored entry when the file exists and both validators match,
otherwise the fetch. -/
def dmAfterCheck (name : String) (env : DmEnv) (stored : Option MetaEntry) :
    List DmProgress × DmResult × Option MetaEntry :=
  if env.fileExists then
    match env.probe with
    | .ok h =>
        match stored with
        | some m =>
            if dateNotNewer h.lastModified m.lastModified && (h.etag == m.etag) then
              ([⟨name, .skipped, 100, m.size, m.size, none⟩], ⟨true, true, none⟩, none)
            else dmFetch name env
        | none => dmFetch name env
    | .error _ => dmFetch name env
  else dmFetch name env

/-- The manager downloadDataset: the checking event first, then the skip or
fetch events and result. -/
def dmDownload (name : String) (env : DmEnv) (stored : Option MetaEntry) :
    List DmProgress × DmResult × Option MetaEntry :=
  (DmProgress.mk name .checking 0 0 0 none :: (dmAfterCheck name env stored).1,
    (dmAfterCheck name env stored).2)

/-- The typed server-sent events of the download route. -/
inductive Ev where
  | start (totalDatasets : Nat)
  | datasetStart (dataset description : String)
  | progress (p : DmProgress)
  | datasetComplete (dataset status : String) (error : Option String)
  | complete (completed skipped failed : Nat)
  | fatal (msg : String)
deriving Repr, DecidableEq

/-- The dataset_complete status and error payload chosen by the route from
the manager result flags (skipped first, then success, else failed). -/
def dcStatus (r : DmResult) : String × Option String :=
  if r.skipped then ("skipped", none)
  else if r.success then ("completed", none)
  else ("failed", r.error)

/-- The tally update of the route loop for one dataset result. -/
def stepTallies (r : DmResult) (c s f : Nat) : Nat × Nat × Nat :=
  if r.skipped then (c, s + 1, f)
  else if r.success then (c + 1, s, f)
  else (c, s, f + 1)

/-- The metadata store after one manager call (the manager mutates the
shared metadata object on a completed download). -/
def dmStoreUpdate (store : String → Option MetaEntry) (name : String)
    (upd : Option MetaEntry) : String → Option MetaEntry :=
  match upd with
  | some e => fun n => if n = name then some e else store n
  | none => store

/-- The per-dataset loop of the route (lines 45-108) with the final complete
event (lines 111-121): for each dataset a dataset_start event, the forwarded
progress events, and exactly one dataset_complete whose status comes from
the result flags; the tallies thread through and the complete event closes
the stream. -/
def routeGo : List (String × String × DmEnv) → (String → Option MetaEntry) →
    Nat → Nat → Nat → List Ev
  | [], _, c, s, f => [.complete c s f]
  | (name, desc, env) :: rest, store, c, s, f =>
      Ev.datasetStart name desc ::
        ((dmDownload name env (store name)).1.map Ev.progress ++
          (Ev.datasetComplete name (dcStatus (dmDownload name env (store name)).2.1).1
              (dcStatus (dmDownload name env (store name)).2.1).2 ::
            routeGo rest (dmStoreUpdate store name (dmDownload name env (store name)).2.2)
              (stepTallies (dmDownload name env (store name)).2.1 c s f).1
              (stepTallies (dmDownload name env (store name)).2.1 c s f).2.1
              (stepTallies (dmDownload name env (store name)).2.1 c s f).2.2))

/-- The full event stream of one POST: the start event, then the loop. -/
def routeEvents (l : List (String × String × DmEnv)) (store : String → Option MetaEntry) :
    List Ev :=
  Ev.start l.length :: routeGo l store 0 0 0

/-- Whether an event belongs to the stream of one dataset name. -/
def evTag (d : String) : Ev → Bool
  | .datasetStart n _ => n == d
  | .progress p => p.dataset == d
  | .datasetComplete n _ _ => n == d
  | _ => false

/-- Whether an event is a progress event of one dataset name. -/
def isProgressOf (d : String) : Ev → Bool
  | .progress p => p.dataset == d
  | _ => false

/-!
Theorems. Helper lemmas come first, then one theorem per claim with its
witness or counterexample.
-/

theorem fetchPhase_basic (env : SyncEnv) :
    (fetchPhase env).attempts = 1 ∧ 1 ≤ (fetchPhase env).getCount ∧
      (fetchPhase env).outcome ≠ Outcome.skipped ∧ (fetchPhase env).warned = false := by
  unfold fetchPhase
  cases env.firstResponse with
  | error msg => simp
  | ok resp =>
      by_cases h : resp.statusCode = 302 ∨ resp.statusCode = 301
      · simp only [h, if_true]
        cases env.redirectResponse with
        | error m => simp
        | ok r2 => cases hs : r2.stream <;> simp [handleResponse, hs]
      · by_cases h2 : resp.statusCode = 200
        · simp only [h, h2, if_false, if_true]
          cases hs : resp.stream <;> simp [handleResponse, hs]
        · simp [h, h2]

/-- C1: with a local file and a stored entry, downloadDataset classifies the
dataset as skipped with zero GET requests exactly when the probe succeeded,
the probed last-modified date is not newer than the stored one under the
JavaScript date comparison (any missing or invalid date makes it false), and
the probed etag equals the stored etag strictly; and a probe rejection logs
the warning and still proceeds to a fetch instead of failing the pass. -/
theorem c1_skipped_iff_fresh (env : SyncEnv) (m : MetaEntry)
    (hfile : env.fileExists = true) :
    (((downloadDataset env (some m)).outcome = Outcome.skipped ∧
        (downloadDataset env (some m)).getCount = 0) ↔
      (∃ h, env.probe = Except.ok h ∧
        dateNotNewer h.lastModified m.lastModified = true ∧ h.etag = m.etag)) ∧
    (∀ e, env.probe = Except.error e →
      (downloadDataset env (some m)).warned = true ∧
      1 ≤ (downloadDataset env (some m)).getCount) := by
  obtain ⟨hat, hget, hsk, hwa⟩ := fetchPhase_basic env
  unfold downloadDataset
  rw [hfile]
  simp only [if_true]
  cases hp : env.probe with
  | ok h =>
      by_cases hc : (dateNotNewer h.lastModified m.lastModified && (h.etag == m.etag)) = true
      · simp only [hc, if_true]
        constructor
        · constructor
          · intro _
            obtain ⟨h1, h2⟩ := Bool.and_eq_true_iff.mp hc
            exact ⟨h, rfl, h1, beq_iff_eq.mp h2⟩
          · intro _
            constructor <;> trivial
        · intro e he
          cases he
      · simp only [Bool.not_eq_true] at hc
        simp only [hc, Bool.false_eq_true, if_false]
        constructor
        · constructor
          · intro ⟨ho, _⟩
            exact absurd ho hsk
          · rintro ⟨h2, hok, hd, he⟩
            injection hok with hh
            subst hh
            rw [hd, he] at hc
            simp at hc
        · intro e he
          cases he
  | error e =>
      constructor
      · constructor
        · intro ⟨ho, _⟩
          exact absurd ho hsk
        · rintro ⟨h2, hok, _, _⟩
          cases hok
      · intro e2 _
        exact ⟨rfl, hget⟩

/-- Concrete environment for the C1 witness: file present, probe succeeds
with headers matching the stored entry. -/
def c1Env : SyncEnv where
  fileExists := true
  probe := Except.ok ⟨some 5, some "W", some 10⟩
  firstResponse := Except.error "connection reset"
  redirectResponse := Except.error "connection reset"
  now := 0

/-- Stored entry for the C1 witness. -/
def c1Meta : MetaEntry := ⟨some 5, some "W", 10, 0⟩

theorem c1_skipped_iff_fresh_witness :
    c1Env.fileExists = true ∧
    ((((downloadDataset c1Env (some c1Meta)).outcome = Outcome.skipped ∧
        (downloadDataset c1Env (some c1Meta)).getCount = 0) ↔
      (∃ h, c1Env.probe = Except.ok h ∧
        dateNotNewer h.lastModified c1Meta.lastModified = true ∧ h.etag = c1Meta.etag)) ∧
    (∀ e, c1Env.probe = Except.error e →
      (downloadDataset c1Env (some c1Meta)).warned = true ∧
      1 ≤ (downloadDataset c1Env (some c1Meta)).getCount)) :=
  ⟨rfl, c1_skipped_iff_fresh c1Env c1Meta rfl⟩

theorem isSuccess_iff (o : Outcome) : o.isSuccess = true ↔ ∃ b, o = Outcome.success b := by
  cases o <;> simp [Outcome.isSuccess]

theorem fetch_meta_char (env : SyncEnv) :
    ((fetchPhase env).metadataUpdate.isSome ↔
      ∃ b, (fetchPhase env).outcome = Outcome.success b) ∧
    (∀ e, (fetchPhase env).metadataUpdate = some e →
      ∃ resp, handledResponse env = some resp ∧
        resp.stream = StreamOutcome.finished e.size ∧
        e.lastModified = resp.headers.lastModified ∧ e.etag = resp.headers.etag ∧
        e.downloadedAt = env.now ∧ (fetchPhase env).outcome = Outcome.success e.size) := by
  unfold fetchPhase handledResponse
  cases env.firstResponse with
  | error msg => simp
  | ok resp =>
      by_cases h : resp.statusCode = 302 ∨ resp.statusCode = 301
      · simp only [if_pos h]
        cases env.redirectResponse with
        | error m => simp
        | ok r2 =>
            cases hs : r2.stream with
            | finished b =>
                refine ⟨by simp [handleResponse, hs], ?_⟩
                intro e he
                simp only [handleResponse, hs, Option.some.injEq] at he
                refine ⟨r2, rfl, ?_, ?_, ?_, ?_, ?_⟩ <;> rw [← he] <;>
                  simp [handleResponse, hs]
            | fileError m => simp [handleResponse, hs]
      · by_cases h2 : resp.statusCode = 200
        · simp only [if_neg h, if_pos h2]
          cases hs : resp.stream with
          | finished b =>
              refine ⟨by simp [handleResponse, hs], ?_⟩
              intro e he
              simp only [handleResponse, hs, Option.some.injEq] at he
              refine ⟨resp, rfl, ?_, ?_, ?_, ?_, ?_⟩ <;> rw [← he] <;>
                simp [handleResponse, hs]
          | fileError m => simp [handleResponse, hs]
        · simp [if_neg h, if_neg h2]

theorem download_meta_char (env : SyncEnv) (st : Option MetaEntry) :
    ((downloadDataset env st).metadataUpdate.isSome ↔
      ∃ b, (downloadDataset env st).outcome = Outcome.success b) ∧
    (∀ e, (downloadDataset env st).metadataUpdate = some e →
      ∃ resp, handledResponse env = some resp ∧
        resp.stream = StreamOutcome.finished e.size ∧
        e.lastModified = resp.headers.lastModified ∧ e.etag = resp.headers.etag ∧
        e.downloadedAt = env.now ∧
        (downloadDataset env st).outcome = Outcome.success e.size) := by
  obtain ⟨hiff, hchar⟩ := fetch_meta_char env
  unfold downloadDataset
  by_cases hf : env.fileExists = true
  · rw [hf]
    simp only [if_true]
    cases env.probe with
    | ok h =>
        cases st with
        | some m =>
            by_cases hc : (dateNotNewer h.lastModified m.lastModified && (h.etag == m.etag)) = true
            · simp [hc]
            · simp only [Bool.not_eq_true] at hc
              simp only [hc, Bool.false_eq_true, if_false]
              exact ⟨hiff, hchar⟩
        | none => exact ⟨hiff, hchar⟩
    | error e => exact ⟨hiff, hchar⟩
  · simp only [Bool.not_eq_true] at hf
    rw [hf]
    simp only [Bool.false_eq_true, if_false]
    exact ⟨hiff, hchar⟩

theorem passSucceeded_cons (n : String) (o : Outcome) (res : List (String × Outcome))
    (name : String) :
    passSucceeded ((n, o) :: res) name ↔
      (n = name ∧ o.isSuccess = true) ∨ passSucceeded res name := by
  unfold passSucceeded
  constructor
  · rintro ⟨p, hp, h1, h2⟩
    rcases List.mem_cons.mp hp with h | h
    · subst h
      exact Or.inl ⟨h1, h2⟩
    · exact Or.inr ⟨p, h, h1, h2⟩
  · rintro (⟨h1, h2⟩ | ⟨p, hp, h1, h2⟩)
    · exact ⟨(n, o), List.mem_cons_self _ _, h1, h2⟩
    · exact ⟨p, List.mem_cons_of_mem _ hp, h1, h2⟩

theorem applyUpdate_isSome (store : String → Option MetaEntry) (n : String) (r : SyncResult)
    (name : String) :
    ((applyUpdate store n r) name).isSome ↔
      ((store name).isSome ∨ (n = name ∧ r.metadataUpdate.isSome)) := by
  unfold applyUpdate
  cases hm : r.metadataUpdate with
  | none => simp
  | some e =>
      by_cases hn : name = n
      · subst hn
        simp
      · have hn2 : ¬(n = name) := fun hh => hn hh.symm
        simp [hn, hn2]

theorem runPass_meta (l : List (String × SyncEnv)) (store : String → Option MetaEntry)
    (name : String) :
    ((runPass l store).1 name).isSome ↔
      ((store name).isSome ∨ passSucceeded (runPass l store).2 name) := by
  induction l generalizing store with
  | nil => simp [runPass, passSucceeded]
  | cons hd tl ih =>
      obtain ⟨n, env⟩ := hd
      simp only [runPass]
      rw [ih, passSucceeded_cons, applyUpdate_isSome]
      have hmeta := (download_meta_char env (store n)).1
      rw [isSuccess_iff]
      rw [hmeta]
      tauto

/-- C2: a metadata entry is created by downloadDataset exactly when the
transfer resolved successfully, in which case the entry carries the
last-modified and etag of the response whose body was streamed, the final
byte count as its size (the file finish event), and the current timestamp;
skipped and failed calls leave the store untouched, and across a whole pass
an entry exists for a name exactly when it existed before or the pass
recorded a completed download for that name. -/
theorem c2_metadata_iff_completed_download :
    (∀ env st, ((downloadDataset env st).metadataUpdate.isSome ↔
        ∃ b, (downloadDataset env st).outcome = Outcome.success b)) ∧
    (∀ env st e, (downloadDataset env st).metadataUpdate = some e →
      ∃ resp, handledResponse env = some resp ∧
        resp.stream = StreamOutcome.finished e.size ∧
        e.lastModified = resp.headers.lastModified ∧ e.etag = resp.headers.etag ∧
        e.downloadedAt = env.now ∧
        (downloadDataset env st).outcome = Outcome.success e.size) ∧
    (∀ l store name, ((runPass l store).1 name).isSome ↔
      ((store name).isSome ∨ passSucceeded (runPass l store).2 name)) :=
  ⟨fun env st => (download_meta_char env st).1,
   fun env st => (download_meta_char env st).2,
   fun l store name => runPass_meta l store name⟩

/-- Concrete environment for the C2 witness: no local file, a 200 answer
whose stream finishes with three bytes. -/
def c2Env : SyncEnv where
  fileExists := false
  probe := Except.error "unused"
  firstResponse := Except.ok ⟨200, ⟨some 1, some "E", some 3⟩, StreamOutcome.finished 3⟩
  redirectResponse := Except.error "unused"
  now := 7

/-- The entry the C2 witness expects to be written. -/
def c2Entry : MetaEntry := ⟨some 1, some "E", 3, 7⟩

theorem c2_metadata_iff_completed_download_witness :
    (downloadDataset c2Env none).metadataUpdate = some c2Entry ∧
    (∃ resp, handledResponse c2Env = some resp ∧
      resp.stream = StreamOutcome.finished c2Entry.size ∧
      c2Entry.lastModified = resp.headers.lastModified ∧
      c2Entry.etag = resp.headers.etag ∧
      c2Entry.downloadedAt = c2Env.now ∧
      (downloadDataset c2Env none).outcome = Outcome.success c2Entry.size) :=
  ⟨by decide, c2_metadata_iff_completed_download.2.1 c2Env none c2Entry (by decide)⟩

/-- Environment for C3: a 200 answer whose stream ends in a write error. -/
def c3Env : SyncEnv where
  fileExists := false
  probe := Except.error "unused"
  firstResponse := Except.ok ⟨200, ⟨none, none, some 9⟩, StreamOutcome.fileError "EIO"⟩
  redirectResponse := Except.error "unused"
  now := 0

/-- The response handled in the C3 environment. -/
def c3Resp : HttpResponse := ⟨200, ⟨none, none, some 9⟩, StreamOutcome.fileError "EIO"⟩

/-- C3 counterexample: a fetch whose stream errors on the very first attempt
is classified failed after exactly one attempt, although the claimed retry
budget of three attempts with a two-second backoff would remain; the cited
downloadDataset has no retry loop at all, so the claim that the fetch is
retried while budget remains is false on this input. -/
theorem c3_counterexample :
    (downloadDataset c3Env none).outcome = Outcome.failed "EIO" ∧
    (downloadDataset c3Env none).attempts = 1 ∧
    (downloadDataset c3Env none).fileDeleted = true := by decide

/-- C3 amended: for every fetch attempt that ends in a stream error, the
partially written file at the canonical output path is deleted and the
dataset is immediately classified as failed with the captured error after a
single attempt; no retry and no backoff occur (the three-attempt retry loop
with a two-second backoff exists only in the separate parallel downloader
variant of the repository, not in downloadDataset of
download-rdw-data-smart.js). -/
theorem c3_stream_error_deletes_and_fails (env : SyncEnv) (resp : HttpResponse) (msg : String)
    (hresp : handledResponse env = some resp)
    (hs : resp.stream = StreamOutcome.fileError msg) :
    (fetchPhase env).fileDeleted = true ∧
    (fetchPhase env).outcome = Outcome.failed msg ∧
    (fetchPhase env).attempts = 1 := by
  obtain ⟨fe, pr, fr, rr, nw⟩ := env
  cases fr with
  | error m => simp [handledResponse] at hresp
  | ok r =>
      by_cases h : r.statusCode = 302 ∨ r.statusCode = 301
      · cases rr with
        | error m => simp [handledResponse, h] at hresp
        | ok r2 =>
            have hr : r2 = resp := by simpa [handledResponse, h] using hresp
            subst hr
            simp [fetchPhase, h, handleResponse, hs]
      · by_cases h2 : r.statusCode = 200
        · have hr : r = resp := by simpa [handledResponse, h, h2] using hresp
          subst hr
          simp [fetchPhase, h, h2, handleResponse, hs]
        · simp [handledResponse, h, h2] at hresp

theorem c3_stream_error_deletes_and_fails_witness :
    (fetchPhase c3Env).fileDeleted = true ∧
    (fetchPhase c3Env).outcome = Outcome.failed "EIO" ∧
    (fetchPhase c3Env).attempts = 1 :=
  c3_stream_error_deletes_and_fails c3Env c3Resp "EIO" (by decide) (by decide)

/-- Environment for C4: the first answer is a 301 and the follow-up answer
is itself a 301 whose body streams to completion. -/
def c4Env : SyncEnv where
  fileExists := false
  probe := Except.error "unused"
  firstResponse := Except.ok ⟨301, ⟨none, none, none⟩, StreamOutcome.finished 0⟩
  redirectResponse := Except.ok ⟨301, ⟨some 2, some "F", some 20⟩, StreamOutcome.finished 20⟩
  now := 1

/-- The first response of the C4 environment. -/
def c4First : HttpResponse := ⟨301, ⟨none, none, none⟩, StreamOutcome.finished 0⟩

/-- The redirect response of the C4 environment. -/
def c4Redirect : HttpResponse := ⟨301, ⟨some 2, some "F", some 20⟩, StreamOutcome.finished 20⟩

/-- C4 counterexample: with a 301 first response followed by another 301, the
code does not treat the two-hop redirect chain as a failure: the second
response body is streamed to the file and the dataset resolves as a
successful download of its bytes (a metadata entry is even written), refuting
the claim that a redirect chain longer than one hop is treated as a failure. -/
theorem c4_counterexample :
    (downloadDataset c4Env none).outcome = Outcome.success 20 ∧
    (downloadDataset c4Env none).getCount = 2 ∧
    (downloadDataset c4Env none).metadataUpdate = some ⟨some 2, some "F", 20, 1⟩ := by
  decide

/-- C4 amended: a 301/302 first response causes exactly one follow-up
request, whose response is consumed as the payload regardless of its own
status code (a second redirect is neither followed nor treated as a
failure: its body is saved as the dataset when its stream finishes); any
first-response status other than 200/301/302 is an immediate per-dataset
failure with a single attempt and no follow-up request. -/
theorem c4_redirect_one_hop (env : SyncEnv) (resp : HttpResponse)
    (hfr : env.firstResponse = Except.ok resp) :
    ((resp.statusCode = 301 ∨ resp.statusCode = 302) →
      (fetchPhase env).getCount = 2 ∧
      (∀ resp2 b, env.redirectResponse = Except.ok resp2 →
        resp2.stream = StreamOutcome.finished b →
        (fetchPhase env).outcome = Outcome.success b)) ∧
    (resp.statusCode ≠ 200 → resp.statusCode ≠ 301 → resp.statusCode ≠ 302 →
      (fetchPhase env).outcome = Outcome.failed ("HTTP " ++ toString resp.statusCode) ∧
      (fetchPhase env).getCount = 1 ∧ (fetchPhase env).attempts = 1) := by
  obtain ⟨fe, pr, fr, rr, nw⟩ := env
  dsimp only at hfr
  subst hfr
  constructor
  · intro hst
    have h : resp.statusCode = 302 ∨ resp.statusCode = 301 := hst.symm
    cases rr with
    | error m =>
        refine ⟨by simp [fetchPhase, h], ?_⟩
        intro resp2 b heq
        cases heq
    | ok r2 =>
        refine ⟨by simp [fetchPhase, h], ?_⟩
        intro resp2 b heq hs2
        injection heq with hr2
        subst hr2
        simp [fetchPhase, h, handleResponse, hs2]
  · intro h200 h301 h302
    have h : ¬(resp.statusCode = 302 ∨ resp.statusCode = 301) := by
      rintro (hh | hh)
      · exact h302 hh
      · exact h301 hh
    refine ⟨?_, ?_, ?_⟩ <;> simp [fetchPhase, h, h200]

theorem c4_redirect_one_hop_witness :
    (fetchPhase c4Env).getCount = 2 ∧ (fetchPhase c4Env).outcome = Outcome.success 20 :=
  ⟨((c4_redirect_one_hop c4Env c4First rfl).1 (Or.inl rfl)).1,
   ((c4_redirect_one_hop c4Env c4First rfl).1 (Or.inl rfl)).2 c4Redirect 20 rfl rfl⟩

/-- C5: a request with empty rows and empty columns is rejected before any
query is compiled, and a request with at least one dimension but an empty
values list compiles with exactly one aggregate, a distinct count over the
kenteken identifier field. -/
theorem c5_empty_dims_rejected_values_defaulted (req : PivotRequest) :
    (req.rows = [] → req.columns = [] →
      pivotAdvanced req = Except.error "At least one row or column dimension is required") ∧
    (¬(req.rows = [] ∧ req.columns = []) → req.values = [] →
      ∃ q, pivotAdvanced req = Except.ok q ∧
        q.valuesUsed = [⟨"kenteken", "COUNT_DISTINCT"⟩] ∧
        selectValuesStr q.valuesUsed = "COUNT(DISTINCT \"kenteken\") as value_0") := by
  constructor
  · intro hr hc
    unfold pivotAdvanced
    rw [hr, hc]
    rfl
  · intro hne hv
    unfold pivotAdvanced
    have hcond : (req.rows.isEmpty && req.columns.isEmpty) = false := by
      rcases hrw : req.rows with _ | ⟨a, as⟩
      · rcases hcl : req.columns with _ | ⟨b, bs⟩
        · exact absurd ⟨hrw, hcl⟩ hne
        · simp
      · simp
    rw [hcond]
    simp only [Bool.false_eq_true, if_false]
    refine ⟨compilePivot req, rfl, ?_, ?_⟩
    · show effValues req = _
      simp [effValues, hv]
    · show selectValuesStr (effValues req) = _
      rw [show effValues req = [⟨"kenteken", "COUNT_DISTINCT"⟩] from by simp [effValues, hv]]
      decide

/-- The empty request of the C5 witness. -/
def c5ReqEmpty : PivotRequest := ⟨[], [], [], Filters.rules []⟩

/-- The request with one row dimension and no values of the C5 witness. -/
def c5ReqDefault : PivotRequest := ⟨["merk"], [], [], Filters.rules []⟩

theorem c5_empty_dims_rejected_values_defaulted_witness :
    pivotAdvanced c5ReqEmpty = Except.error "At least one row or column dimension is required" ∧
    (∃ q, pivotAdvanced c5ReqDefault = Except.ok q ∧
      q.valuesUsed = [⟨"kenteken", "COUNT_DISTINCT"⟩] ∧
      selectValuesStr q.valuesUsed = "COUNT(DISTINCT \"kenteken\") as value_0") :=
  ⟨(c5_empty_dims_rejected_values_defaulted c5ReqEmpty).1 rfl rfl,
   (c5_empty_dims_rejected_values_defaulted c5ReqDefault).2 (by simp [c5ReqDefault]) rfl⟩

theorem ruleCond_inert (f : FilterRule)
    (h : f.field = "" ∨ f.value = "" ∨
      ((if f.operator = "" then "equals" else f.operator) = "between" ∧
        (f.value2 = none ∨ f.value2 = some ""))) :
    ruleCond f = [] := by
  unfold ruleCond
  rcases h with h | h | ⟨hop, hv2⟩
  · simp [h]
  · simp [h]
  · by_cases hfv : f.field = "" ∨ f.value = ""
    · simp [hfv]
    · rw [if_neg hfv]
      simp only [hop]
      rcases hv2 with h2 | h2 <;> simp [h2]

theorem flatMap_mid_nil {α β : Type} (g : α → List β) (l1 l2 : List α) (a : α)
    (ha : g a = []) : (l1 ++ a :: l2).flatMap g = (l1 ++ l2).flatMap g := by
  induction l1 with
  | nil => simp [ha]
  | cons x xs ih => simp only [List.cons_append, List.flatMap_cons, ih]

theorem compilePivot_filters_congr (req : PivotRequest) (f1 f2 : Filters)
    (h : filterConds f1 = filterConds f2) :
    compilePivot { req with filters := f1 } = compilePivot { req with filters := f2 } := by
  have he : effValues { req with filters := f1 } = effValues { req with filters := f2 } := rfl
  unfold compilePivot
  simp [h, he]

/-- C7: a filter rule whose field or value is empty, or a between rule
without a truthy second bound, is inert: removing it from the rule list
leaves the compiled pivot query (dimensions, conditions and SQL text) and
the handler result unchanged. -/
theorem c7_inert_rules_leave_query_unchanged (req : PivotRequest)
    (l1 l2 : List FilterRule) (f : FilterRule)
    (h1 : req.filters = Filters.rules (l1 ++ f :: l2))
    (hinert : f.field = "" ∨ f.value = "" ∨
      ((if f.operator = "" then "equals" else f.operator) = "between" ∧
        (f.value2 = none ∨ f.value2 = some ""))) :
    compilePivot req = compilePivot { req with filters := Filters.rules (l1 ++ l2) } ∧
    pivotAdvanced req = pivotAdvanced { req with filters := Filters.rules (l1 ++ l2) } := by
  have hfc : filterConds (Filters.rules (l1 ++ f :: l2)) =
      filterConds (Filters.rules (l1 ++ l2)) := by
    unfold filterConds
    exact flatMap_mid_nil ruleCond l1 l2 f (ruleCond_inert f hinert)
  have hreq : req = { req with filters := Filters.rules (l1 ++ f :: l2) } := by
    rw [← h1]
  have hmain : compilePivot req = compilePivot { req with filters := Filters.rules (l1 ++ l2) } := by
    rw [hreq]
    exact compilePivot_filters_congr req _ _ hfc
  refine ⟨hmain, ?_⟩
  unfold pivotAdvanced
  dsimp only
  rw [hmain]

/-- The inert rule of the C7 witness: empty value. -/
def c7Rule : FilterRule := ⟨"merk", "equals", "", none⟩

/-- The request of the C7 witness, carrying only the inert rule. -/
def c7Req : PivotRequest := ⟨["merk"], [], [], Filters.rules [c7Rule]⟩

theorem c7_inert_rules_leave_query_unchanged_witness :
    compilePivot c7Req = compilePivot { c7Req with filters := Filters.rules ([] ++ []) } ∧
    pivotAdvanced c7Req = pivotAdvanced { c7Req with filters := Filters.rules ([] ++ []) } :=
  c7_inert_rules_leave_query_unchanged c7Req [] [] c7Rule rfl (Or.inr (Or.inl rfl))

/-- C8: the grouping key of the compiled query is the rows followed by the
columns in insertion order; every dimension field receives the implicit
is-not-null-and-not-empty condition; and any row of the unified view whose
value at some dimension is NULL or the empty string falsifies the compiled
WHERE conjunction, so it is excluded from the pivot output and forms no
group. -/
theorem c8_grouping_order_and_null_exclusion (req : PivotRequest) :
    (compilePivot req).dims = req.rows ++ req.columns ∧
    (∀ col ∈ req.rows ++ req.columns, Cond.notNullC col ∈ (compilePivot req).conds) ∧
    (∀ row col, col ∈ req.rows ++ req.columns →
      (row col = none ∨ row col = some "") →
      evalWhere row (compilePivot req).conds = false) := by
  have hconds : (compilePivot req).conds =
      filterConds req.filters ++ (req.rows ++ req.columns).map Cond.notNullC := rfl
  have hmem : ∀ col ∈ req.rows ++ req.columns,
      Cond.notNullC col ∈ (compilePivot req).conds := by
    intro col hcol
    rw [hconds]
    exact List.mem_append_right _ (List.mem_map.mpr ⟨col, hcol, rfl⟩)
  refine ⟨rfl, hmem, ?_⟩
  intro row col hcol hnull
  have hev : evalCond row (Cond.notNullC col) = false := by
    rcases hnull with h | h <;> simp [evalCond, h]
  cases hall : evalWhere row (compilePivot req).conds
  · rfl
  · exfalso
    have := List.all_eq_true.mp hall _ (hmem col hcol)
    rw [hev] at this
    cases this

/-- The request of the C8 witness: one row and one column dimension. -/
def c8Req : PivotRequest := ⟨["merk"], ["brandstof_omschrijving"], [], Filters.rules []⟩

theorem c8_grouping_order_and_null_exclusion_witness :
    (compilePivot c8Req).dims = ["merk", "brandstof_omschrijving"] ∧
    Cond.notNullC "merk" ∈ (compilePivot c8Req).conds ∧
    evalWhere (fun _ => none) (compilePivot c8Req).conds = false :=
  ⟨(c8_grouping_order_and_null_exclusion c8Req).1,
   (c8_grouping_order_and_null_exclusion c8Req).2.1 "merk" (by simp [c8Req]),
   (c8_grouping_order_and_null_exclusion c8Req).2.2 (fun _ => none) "merk"
     (by simp [c8Req]) (Or.inl rfl)⟩

theorem mem_insertBy {α : Type} (le : α → α → Bool) (a x : α) (l : List α) :
    x ∈ insertBy le a l ↔ x = a ∨ x ∈ l := by
  induction l with
  | nil => simp [insertBy]
  | cons b bs ih =>
      by_cases h : le a b = true
      · simp [insertBy, h]
      · simp [insertBy, h, ih]
        tauto

theorem mem_sortBy {α : Type} (le : α → α → Bool) (x : α) (l : List α) :
    x ∈ sortBy le l ↔ x ∈ l := by
  induction l with
  | nil => simp [sortBy]
  | cons a as ih => simp [sortBy, mem_insertBy, ih]

/-- C10: in the single-dimension unified-view endpoint the unique operation
excludes NULL and empty-string values of the queried column from its result,
while the count operation applies no such exclusion: a row whose column
value is NULL or empty contributes a group keyed by that value, with a
positive count, to the count grouping. -/
theorem c10_unique_excludes_count_keeps (t : List (Option String)) :
    (∀ limitNum v, v ∈ uniqueValues t limitNum → v ≠ none ∧ v ≠ some "") ∧
    (∀ v, v ∈ t → (v = none ∨ v = some "") →
      (v, t.count v) ∈ countGroups t ∧ 0 < t.count v) := by
  constructor
  · intro limitNum v hv
    have h1 : v ∈ sortBy osLe ((t.filter keepValue).dedup) := List.mem_of_mem_take hv
    rw [mem_sortBy] at h1
    have h2 : v ∈ t.filter keepValue := List.mem_dedup.mp h1
    have h3 := List.of_mem_filter h2
    cases v with
    | none => simp [keepValue] at h3
    | some s =>
        refine ⟨by simp, ?_⟩
        simp only [ne_eq, Option.some.injEq]
        intro hh
        rw [hh] at h3
        simp [keepValue] at h3
  · intro v hv _
    refine ⟨List.mem_map.mpr ⟨v, List.mem_dedup.mpr hv, rfl⟩, ?_⟩
    exact List.count_pos_iff.mpr hv

/-- The column projection of the C10 witness: one NULL row, one empty row,
one proper value. -/
def c10T : List (Option String) := [none, some "", some "A"]

theorem c10_unique_excludes_count_keeps_witness :
    ((some "A" : Option String) ≠ none ∧ (some "A" : Option String) ≠ some "") ∧
    ((none, c10T.count none) ∈ countGroups c10T ∧ 0 < c10T.count none) :=
  ⟨(c10_unique_excludes_count_keeps c10T).1 100 (some "A") (by decide),
   (c10_unique_excludes_count_keeps c10T).2 none (by decide) (Or.inl rfl)⟩

theorem chunkEvents_dataset (name : String) (total : Nat) (chunks : List Nat) (acc : Nat) :
    ∀ p ∈ chunkEvents name total chunks acc, p.dataset = name := by
  induction chunks generalizing acc with
  | nil => intro p hp; cases hp
  | cons c cs ih =>
      intro p hp
      rcases List.mem_cons.mp hp with h | h
      · subst h; rfl
      · exact ih _ _ h

theorem dmHandleResponse_dataset (name : String) (now : Int) (resp : DmResponse) :
    ∀ p ∈ (dmHandleResponse name now resp).1, p.dataset = name := by
  intro p hp
  unfold dmHandleResponse at hp
  split at hp <;>
  · rcases List.mem_cons.mp hp with h | h
    · subst h; rfl
    · rcases List.mem_append.mp h with h1 | h1
      · exact chunkEvents_dataset name _ _ _ p h1
      · rw [List.mem_singleton] at h1
        subst h1; rfl

theorem dmFetch_dataset (name : String) (env : DmEnv) :
    ∀ p ∈ (dmFetch name env).1, p.dataset = name := by
  intro p hp
  unfold dmFetch at hp
  split at hp
  · cases hp
  · split at hp
    · split at hp
      · cases hp
      · split at hp
        · cases hp
        · exact dmHandleResponse_dataset _ _ _ p hp
    · split at hp
      · exact dmHandleResponse_dataset _ _ _ p hp
      · cases hp

theorem dmDownload_dataset (name : String) (env : DmEnv) (stored : Option MetaEntry) :
    ∀ p ∈ (dmDownload name env stored).1, p.dataset = name := by
  intro p hp
  unfold dmDownload at hp
  rcases List.mem_cons.mp hp with h | h
  · subst h; rfl
  · unfold dmAfterCheck at h
    split at h
    · split at h
      · split at h
        · split at h
          · rw [List.mem_singleton] at h
            subst h; rfl
          · exact dmFetch_dataset name env p h
        · exact dmFetch_dataset name env p h
      · exact dmFetch_dataset name env p h
    · exact dmFetch_dataset name env p h

theorem routeGo_ne_nil (l : List (String × String × DmEnv)) (store : String → Option MetaEntry)
    (c s f : Nat) : routeGo l store c s f ≠ [] := by
  cases l with
  | nil => simp [routeGo]
  | cons hd tl => obtain ⟨name, desc, env⟩ := hd; simp [routeGo]

theorem getLast?_append_right {α : Type} (l1 l2 : List α) (h : l2 ≠ []) :
    (l1 ++ l2).getLast? = l2.getLast? := by
  obtain ⟨x, hx⟩ : ∃ x, l2.getLast? = some x := by
    cases l2 with
    | nil => exact absurd rfl h
    | cons b bs => exact ⟨_, List.getLast?_cons⟩
  induction l1 with
  | nil => rfl
  | cons a as ih =>
      rw [List.cons_append, List.getLast?_cons, ih, hx]
      rfl

theorem routeGo_last (l : List (String × String × DmEnv)) (store : String → Option MetaEntry)
    (c s f : Nat) :
    ∃ c2 s2 f2, (routeGo l store c s f).getLast? = some (Ev.complete c2 s2 f2) := by
  induction l generalizing store c s f with
  | nil => exact ⟨c, s, f, rfl⟩
  | cons hd tl ih =>
      obtain ⟨name, desc, env⟩ := hd
      simp only [routeGo]
      rw [show ∀ (a : Ev) (x : List Ev), (a :: x) = [a] ++ x from fun a x => rfl]
      rw [getLast?_append_right _ _ (by simp), getLast?_append_right _ _ (by simp),
        List.getLast?_cons]
      obtain ⟨c2, s2, f2, hlast⟩ := ih (dmStoreUpdate store name (dmDownload name env (store name)).2.2)
        (stepTallies (dmDownload name env (store name)).2.1 c s f).1
        (stepTallies (dmDownload name env (store name)).2.1 c s f).2.1
        (stepTallies (dmDownload name env (store name)).2.1 c s f).2.2
      rw [hlast]
      exact ⟨c2, s2, f2, rfl⟩

theorem filter_progress_nil (d name : String) (ps : List DmProgress)
    (hps : ∀ p ∈ ps, p.dataset = name) (hne : name ≠ d) :
    (ps.map Ev.progress).filter (evTag d) = [] := by
  induction ps with
  | nil => rfl
  | cons p pr ih =>
      have h1 : p.dataset = name := hps p (List.mem_cons_self _ _)
      have h2 : ∀ q ∈ pr, q.dataset = name := fun q hq => hps q (List.mem_cons_of_mem _ hq)
      have hb : (p.dataset == d) = false := by
        rw [h1]
        exact beq_eq_false_iff_ne.mpr hne
      simp only [List.map_cons, List.filter_cons, evTag, hb]
      exact ih h2

theorem filter_progress_self (d : String) (ps : List DmProgress)
    (hps : ∀ p ∈ ps, p.dataset = d) :
    (ps.map Ev.progress).filter (evTag d) = ps.map Ev.progress := by
  induction ps with
  | nil => rfl
  | cons p pr ih =>
      have h1 : p.dataset = d := hps p (List.mem_cons_self _ _)
      have h2 : ∀ q ∈ pr, q.dataset = d := fun q hq => hps q (List.mem_cons_of_mem _ hq)
      have hb : (p.dataset == d) = true := by rw [h1]; exact beq_self_eq_true d
      simp [List.filter_cons, evTag, hb, ih h2]

theorem routeGo_filter_not_mem (d : String) (l : List (String × String × DmEnv))
    (store : String → Option MetaEntry) (c s f : Nat)
    (hd : d ∉ l.map (fun x => x.1)) :
    (routeGo l store c s f).filter (evTag d) = [] := by
  induction l generalizing store c s f with
  | nil => rfl
  | cons hd2 tl ih =>
      obtain ⟨name, desc, env⟩ := hd2
      simp only [List.map_cons, List.mem_cons] at hd
      push_neg at hd
      obtain ⟨hne, hnotin⟩ := hd
      have hb : (name == d) = false := beq_eq_false_iff_ne.mpr (fun hh => hne hh.symm)
      simp only [routeGo, List.filter_cons, List.filter_append, evTag, hb]
      rw [filter_progress_nil d name _ (dmDownload_dataset name env (store name))
        (fun hh => hne hh.symm)]
      rw [ih _ _ _ _ hnotin]
      rfl

theorem routeGo_filter_mem (d : String) (l : List (String × String × DmEnv))
    (store : String → Option MetaEntry) (c s f : Nat)
    (hnd : (l.map (fun x => x.1)).Nodup) (hmem : d ∈ l.map (fun x => x.1)) :
    ∃ (desc : String) (ps : List DmProgress) (st : String) (er : Option String),
      (routeGo l store c s f).filter (evTag d) =
        Ev.datasetStart d desc :: (ps.map Ev.progress ++ [Ev.datasetComplete d st er]) ∧
      ∀ p ∈ ps, p.dataset = d := by
  induction l generalizing store c s f with
  | nil => cases hmem
  | cons hd2 tl ih =>
      obtain ⟨name, desc, env⟩ := hd2
      simp only [List.map_cons, List.nodup_cons] at hnd
      obtain ⟨hnin, hnd2⟩ := hnd
      rcases List.mem_cons.mp hmem with hdn | hdn
      · subst hdn
        have hb : (d == d) = true := beq_self_eq_true d
        refine ⟨desc, (dmDownload d env (store d)).1,
          (dcStatus (dmDownload d env (store d)).2.1).1,
          (dcStatus (dmDownload d env (store d)).2.1).2, ?_,
          dmDownload_dataset d env (store d)⟩
        simp only [routeGo, List.filter_cons, List.filter_append, evTag, hb]
        rw [filter_progress_self d _ (dmDownload_dataset d env (store d))]
        rw [routeGo_filter_not_mem d tl _ _ _ _ hnin]
        rfl
      · have hne : name ≠ d := by
          intro hh
          rw [hh] at hnin
          exact hnin hdn
        have hb : (name == d) = false := beq_eq_false_iff_ne.mpr hne
        obtain ⟨desc2, ps, st, er, hfil, hps⟩ := ih
          (dmStoreUpdate store name (dmDownload name env (store name)).2.2)
          (stepTallies (dmDownload name env (store name)).2.1 c s f).1
          (stepTallies (dmDownload name env (store name)).2.1 c s f).2.1
          (stepTallies (dmDownload name env (store name)).2.1 c s f).2.2
          hnd2 hdn
        refine ⟨desc2, ps, st, er, ?_, hps⟩
        simp only [routeGo, List.filter_cons, List.filter_append, evTag, hb]
        rw [filter_progress_nil d name _ (dmDownload_dataset name env (store name)) hne]
        rw [hfil]
        rfl

/-- C9: within one POST stream, the events of any single dataset form
exactly the sequence dataset_start, then that dataset's progress events,
then exactly one dataset_complete; and the stream always ends with the
complete event carrying the tallies, even when individual datasets fail
(the manager resolves failures as results, so the loop always reaches the
final complete event). -/
theorem c9_event_stream_ordering (l : List (String × String × DmEnv))
    (store : String → Option MetaEntry) (d : String)
    (hnd : (l.map (fun x => x.1)).Nodup) (hmem : d ∈ l.map (fun x => x.1)) :
    (∃ (desc : String) (ps : List DmProgress) (st : String) (er : Option String),
      (routeEvents l store).filter (evTag d) =
        Ev.datasetStart d desc :: (ps.map Ev.progress ++ [Ev.datasetComplete d st er]) ∧
      ∀ p ∈ ps, p.dataset = d) ∧
    (∃ c2 s2 f2, (routeEvents l store).getLast? = some (Ev.complete c2 s2 f2)) := by
  constructor
  · have h := routeGo_filter_mem d l store 0 0 0 hnd hmem
    have hfe : (routeEvents l store).filter (evTag d) =
        (routeGo l store 0 0 0).filter (evTag d) := by
      simp [routeEvents, List.filter_cons, evTag]
    rw [hfe]
    exact h
  · obtain ⟨c2, s2, f2, h⟩ := routeGo_last l store 0 0 0
    refine ⟨c2, s2, f2, ?_⟩
    unfold routeEvents
    rw [show (Ev.start l.length :: routeGo l store 0 0 0) =
      [Ev.start l.length] ++ routeGo l store 0 0 0 from rfl]
    rw [getLast?_append_right _ _ (routeGo_ne_nil l store 0 0 0)]
    exact h

/-- The environment of the C9 witness: no local file, a 200 answer
delivering two chunks and finishing cleanly. -/
def c9Env : DmEnv where
  fileExists := false
  probe := Except.error "unused"
  firstResponse := Except.ok ⟨200, true, ⟨some 1, some "E", some 4⟩, [2, 2], none⟩
  redirectResponse := Except.error "unused"
  now := 0

/-- The one-dataset registry of the C9 witness. -/
def c9L : List (String × String × DmEnv) := [("assen", "Axle information", c9Env)]

theorem c9_event_stream_ordering_witness :
    (∃ (desc : String) (ps : List DmProgress) (st : String) (er : Option String),
      (routeEvents c9L (fun _ => none)).filter (evTag "assen") =
        Ev.datasetStart "assen" desc ::
          (ps.map Ev.progress ++ [Ev.datasetComplete "assen" st er]) ∧
      ∀ p ∈ ps, p.dataset = "assen") ∧
    (∃ c2 s2 f2, (routeEvents c9L (fun _ => none)).getLast? = some (Ev.complete c2 s2 f2)) :=
  c9_event_stream_ordering c9L (fun _ => none) "assen" (by simp [c9L]) (by simp [c9L])

theorem skelFalseConsNe (c : Char) (cs : List Char) (hc : ¬ c = sqc) :
    skelAux false (c :: cs) = c :: skelAux false cs := by
  simp [skelAux, hc]

theorem skelFalseConsQ (cs : List Char) :
    skelAux false (sqc :: cs) = sqc :: skelAux true cs := by
  simp [skelAux]

theorem skelTrueConsNe (c : Char) (cs : List Char) (hc : ¬ c = sqc) :
    skelAux true (c :: cs) = skelAux true cs := by
  cases cs <;> simp [skelAux, hc]

theorem skelTrueQQ (cs : List Char) : skelAux true (sqc :: sqc :: cs) = skelAux true cs := by
  simp [skelAux]

theorem skelTrueQNe (c2 : Char) (cs2 : List Char) (h : ¬ c2 = sqc) :
    skelAux true (sqc :: c2 :: cs2) = sqc :: skelAux false (c2 :: cs2) := by
  simp [skelAux, h]

theorem skelAux_false_noquote (xs : List Char) (hx : sqc ∉ xs) (ys : List Char) :
    skelAux false (xs ++ ys) = xs ++ skelAux false ys := by
  induction xs with
  | nil => rfl
  | cons c cs ih =>
      have hc : ¬(c = sqc) := fun h => hx (h ▸ List.mem_cons_self c cs)
      have hcs : sqc ∉ cs := fun h => hx (List.mem_cons_of_mem _ h)
      rw [List.cons_append, skelFalseConsNe c _ hc, ih hcs, List.cons_append]

theorem skelAux_true_noquote (xs : List Char) (hx : sqc ∉ xs) (ys : List Char) :
    skelAux true (xs ++ ys) = skelAux true ys := by
  induction xs with
  | nil => rfl
  | cons c cs ih =>
      have hc : ¬(c = sqc) := fun h => hx (h ▸ List.mem_cons_self c cs)
      have hcs : sqc ∉ cs := fun h => hx (List.mem_cons_of_mem _ h)
      rw [List.cons_append, skelTrueConsNe c _ hc]
      exact ih hcs

theorem skelAux_true_escAux (v rest : List Char) :
    skelAux true (escAux v ++ rest) = skelAux true rest := by
  induction v with
  | nil => rfl
  | cons c cs ih =>
      by_cases hc : c = sqc
      · subst hc
        rw [show escAux (sqc :: cs) = sqc :: sqc :: escAux cs from by simp [escAux]]
        rw [List.cons_append, List.cons_append, skelTrueQQ]
        exact ih
      · rw [show escAux (c :: cs) = c :: escAux cs from by simp [escAux, hc]]
        rw [List.cons_append, skelTrueConsNe c _ hc]
        exact ih

theorem skelAux_true_close (rest : List Char) (h : headSafeB rest = true) :
    skelAux true (sqc :: rest) = sqc :: skelAux false rest := by
  cases rest with
  | nil => rfl
  | cons c cs =>
      have hc : ¬(c = sqc) := by
        simp only [headSafeB, Bool.not_eq_eq_eq_not, Bool.not_true, beq_eq_false_iff_ne,
          ne_eq] at h
        exact h
      exact skelTrueQNe c cs hc

theorem segContrib_noquote (s : String) (h : NoQuote s) : SegContrib s s.data := by
  intro rest _
  exact skelAux_false_noquote s.data h rest

theorem segContrib_prepend (a b : String) (ha : NoQuote a) (skb : List Char)
    (hb : SegContrib b skb) : SegContrib (a ++ b) (a.data ++ skb) := by
  intro rest hrest
  rw [String.data_append, List.append_assoc, skelAux_false_noquote a.data ha,
    hb rest hrest, List.append_assoc]

theorem segContrib_lit (a : String) (p : List Char) (v : String) (q : List Char)
    (ha : NoQuote a) (hp : sqc ∉ p) (hq : sqc ∉ q) (s : String)
    (hs : s.data = a.data ++ (sqc :: (p ++ (escAux v.data ++ (q ++ [sqc]))))) :
    SegContrib s (a.data ++ [sqc, sqc]) := by
  intro rest hrest
  rw [hs]
  rw [List.append_assoc, skelAux_false_noquote a.data ha]
  have h1 : (sqc :: (p ++ (escAux v.data ++ (q ++ [sqc])))) ++ rest =
      sqc :: (p ++ (escAux v.data ++ (q ++ (sqc :: rest)))) := by
    simp [List.append_assoc]
  rw [h1, skelFalseConsQ, skelAux_true_noquote p hp, skelAux_true_escAux,
    skelAux_true_noquote q hq, skelAux_true_close rest hrest]
  simp

theorem noquote_append (a b : String) (ha : NoQuote a) (hb : NoQuote b) :
    NoQuote (a ++ b) := by
  unfold NoQuote at *
  rw [String.data_append]
  simp only [List.mem_append]
  rintro (h | h)
  · exact ha h
  · exact hb h

theorem noquote_quoteIdent (col : String) (h : NoQuote col) : NoQuote (quoteIdent col) := by
  unfold quoteIdent
  exact noquote_append _ _ (noquote_append _ _ (by decide) h) (by decide)

theorem takeDigits_isDigit (l : List Char) : ∀ c ∈ (takeDigits l).1, c.isDigit = true := by
  induction l with
  | nil => intro c hc; cases hc
  | cons a as ih =>
      intro c hc
      by_cases ha : a.isDigit = true
      · rw [show takeDigits (a :: as) = (a :: (takeDigits as).1, (takeDigits as).2) from by
          simp [takeDigits, ha]] at hc
        rcases List.mem_cons.mp hc with h | h
        · subst h; exact ha
        · exact ih c h
      · rw [show takeDigits (a :: as) = ([], a :: as) from by simp [takeDigits, ha]] at hc
        cases hc

theorem signSplit_chars (l : List Char) : ∀ c ∈ (signSplit l).1, c = '-' ∨ c = '+' := by
  cases l with
  | nil => intro c hc; cases hc
  | cons a as =>
      intro c hc
      by_cases ha : a = '-' ∨ a = '+'
      · rw [show signSplit (a :: as) = ([a], as) from by simp [signSplit, ha]] at hc
        rw [List.mem_singleton] at hc
        subst hc
        exact ha
      · rw [show signSplit (a :: as) = ([], a :: as) from by simp [signSplit, ha]] at hc
        cases hc

theorem fracSplit_chars (l : List Char) :
    ∀ c ∈ (fracSplit l).1, c = '.' ∨ c.isDigit = true := by
  cases l with
  | nil => intro c hc; cases hc
  | cons a as =>
      intro c hc
      by_cases ha : a = '.'
      · rw [show fracSplit (a :: as) = (a :: (takeDigits as).1, (takeDigits as).2) from by
          simp [fracSplit, ha]] at hc
        rcases List.mem_cons.mp hc with h | h
        · subst h; exact Or.inl ha
        · exact Or.inr (takeDigits_isDigit as c h)
      · rw [show fracSplit (a :: as) = ([], a :: as) from by simp [fracSplit, ha]] at hc
        cases hc

theorem noquote_jsParseFloatStr (v : String) : NoQuote (jsParseFloatStr v) := by
  unfold jsParseFloatStr
  cases hj : jsParseFloatChars v.data with
  | none => decide
  | some l =>
      show sqc ∉ l
      unfold jsParseFloatChars at hj
      split at hj
      · cases hj
      · injection hj with hl
        rw [← hl]
        intro hmem
        rcases List.mem_append.mp hmem with h | h
        · rcases List.mem_append.mp h with h1 | h1
          · rcases signSplit_chars _ _ h1 with h2 | h2 <;> exact absurd h2 (by decide)
          · exact absurd (takeDigits_isDigit _ _ h1) (by decide)
        · rcases fracSplit_chars _ _ h with h1 | h1
          · exact absurd h1 (by decide)
          · exact absurd h1 (by decide)

theorem digitChar_ne_sqc (d : Nat) : ¬ Nat.digitChar d = sqc := by
  intro h
  rcases Nat.lt_or_ge d 16 with hd | hd
  · interval_cases d <;> exact absurd h (by decide)
  · have hne : ∀ k : Nat, k < 16 → ¬ d = k := fun k hk he => by omega
    unfold Nat.digitChar at h
    rw [if_neg (hne 0 (by norm_num)), if_neg (hne 1 (by norm_num)),
      if_neg (hne 2 (by norm_num)), if_neg (hne 3 (by norm_num)),
      if_neg (hne 4 (by norm_num)), if_neg (hne 5 (by norm_num)),
      if_neg (hne 6 (by norm_num)), if_neg (hne 7 (by norm_num)),
      if_neg (hne 8 (by norm_num)), if_neg (hne 9 (by norm_num)),
      if_neg (hne 10 (by norm_num)), if_neg (hne 11 (by norm_num)),
      if_neg (hne 12 (by norm_num)), if_neg (hne 13 (by norm_num)),
      if_neg (hne 14 (by norm_num)), if_neg (hne 15 (by norm_num))] at h
    exact absurd h (by decide)

theorem toDigitsCore_ne_sqc (b f : Nat) : ∀ (n : Nat) (acc : List Char),
    (∀ c ∈ acc, ¬ c = sqc) → ∀ c ∈ Nat.toDigitsCore b f n acc, ¬ c = sqc := by
  induction f with
  | zero =>
      intro n acc hacc c hc
      exact hacc c hc
  | succ f ih =>
      intro n acc hacc c hc
      simp only [Nat.toDigitsCore] at hc
      split at hc
      · rcases List.mem_cons.mp hc with h | h
        · subst h; exact digitChar_ne_sqc _
        · exact hacc c h
      · refine ih _ _ ?_ c hc
        intro c2 hc2
        rcases List.mem_cons.mp hc2 with h | h
        · subst h; exact digitChar_ne_sqc _
        · exact hacc c2 h

theorem noquote_toString_nat (n : Nat) : sqc ∉ (toString n).data := by
  show sqc ∉ Nat.toDigits 10 n
  intro h
  exact toDigitsCore_ne_sqc 10 (n + 1) n [] (fun c hc => absurd hc (List.not_mem_nil c)) sqc h rfl

theorem noquote_aggFuncStr (col agg : String) (h : NoQuote col) :
    NoQuote (aggFuncStr col agg) := by
  have hq := noquote_quoteIdent col h
  simp only [aggFuncStr]
  repeat' split
  all_goals exact noquote_append _ _ (noquote_append _ _ (by decide) hq) (by decide)

theorem noquote_joinSep (s : String) (l : List String) (hs : NoQuote s)
    (hl : ∀ a ∈ l, NoQuote a) : NoQuote (joinSep s l) := by
  induction l with
  | nil => exact (by decide : NoQuote "")
  | cons a bs ih =>
      cases bs with
      | nil => exact hl a (List.mem_cons_self _ _)
      | cons b bs2 =>
          exact noquote_append _ _
            (noquote_append _ _ (hl a (List.mem_cons_self _ _)) hs)
            (ih (fun x hx => hl x (List.mem_cons_of_mem _ hx)))

theorem snd_mem_of_mem_enum {α : Type} {p : Nat × α} {l : List α} (h : p ∈ l.enum) :
    p.2 ∈ l := by
  rw [List.mem_enum_iff_getElem?] at h
  exact List.getElem?_mem h

theorem noquote_selectValuesStr (vals : List ValueSpec)
    (h : ∀ v ∈ vals, NoQuote v.column) : NoQuote (selectValuesStr vals) := by
  unfold selectValuesStr
  refine noquote_joinSep _ _ (by decide) ?_
  intro a ha
  rcases List.mem_map.mp ha with ⟨p, hp, hpa⟩
  rw [← hpa]
  exact noquote_append _ _
    (noquote_append _ _ (noquote_aggFuncStr _ _ (h p.2 (snd_mem_of_mem_enum hp))) (by decide))
    (noquote_toString_nat p.1)

theorem sqS_data : sqS.data = [sqc] := rfl

theorem escapeValue_data (v : String) : (escapeValue v).data = escAux v.data := rfl

theorem pct_data : ("%" : String).data = [Char.ofNat 37] := rfl

theorem condSk_eqC (col v1 v2 : String) (h : NoQuote col) :
    CondSk (Cond.eqC col v1) (Cond.eqC col v2) := by
  have ha : NoQuote (quoteIdent col ++ " = ") :=
    noquote_append _ _ (noquote_quoteIdent col h) (by decide)
  refine ⟨(quoteIdent col ++ " = ").data ++ [sqc, sqc],
    segContrib_lit (quoteIdent col ++ " = ") [] v1 [] ha (by decide) (by decide) _ ?_,
    segContrib_lit (quoteIdent col ++ " = ") [] v2 [] ha (by decide) (by decide) _ ?_⟩ <;>
    simp [renderCond, String.data_append, sqS_data, escapeValue_data, List.append_assoc]

theorem condSk_neC (col v1 v2 : String) (h : NoQuote col) :
    CondSk (Cond.neC col v1) (Cond.neC col v2) := by
  have ha : NoQuote (quoteIdent col ++ " != ") :=
    noquote_append _ _ (noquote_quoteIdent col h) (by decide)
  refine ⟨(quoteIdent col ++ " != ").data ++ [sqc, sqc],
    segContrib_lit (quoteIdent col ++ " != ") [] v1 [] ha (by decide) (by decide) _ ?_,
    segContrib_lit (quoteIdent col ++ " != ") [] v2 [] ha (by decide) (by decide) _ ?_⟩ <;>
    simp [renderCond, String.data_append, sqS_data, escapeValue_data, List.append_assoc]

theorem condSk_containsC (col v1 v2 : String) (h : NoQuote col) :
    CondSk (Cond.containsC col v1) (Cond.containsC col v2) := by
  have ha : NoQuote (quoteIdent col ++ " LIKE ") :=
    noquote_append _ _ (noquote_quoteIdent col h) (by decide)
  refine ⟨(quoteIdent col ++ " LIKE ").data ++ [sqc, sqc],
    segContrib_lit (quoteIdent col ++ " LIKE ") [Char.ofNat 37] v1 [Char.ofNat 37] ha
      (by decide) (by decide) _ ?_,
    segContrib_lit (quoteIdent col ++ " LIKE ") [Char.ofNat 37] v2 [Char.ofNat 37] ha
      (by decide) (by decide) _ ?_⟩ <;>
    simp [renderCond, String.data_append, sqS_data, escapeValue_data, pct_data,
      List.append_assoc]

theorem condSk_startsC (col v1 v2 : String) (h : NoQuote col) :
    CondSk (Cond.startsC col v1) (Cond.startsC col v2) := by
  have ha : NoQuote (quoteIdent col ++ " LIKE ") :=
    noquote_append _ _ (noquote_quoteIdent col h) (by decide)
  refine ⟨(quoteIdent col ++ " LIKE ").data ++ [sqc, sqc],
    segContrib_lit (quoteIdent col ++ " LIKE ") [] v1 [Char.ofNat 37] ha
      (by decide) (by decide) _ ?_,
    segContrib_lit (quoteIdent col ++ " LIKE ") [] v2 [Char.ofNat 37] ha
      (by decide) (by decide) _ ?_⟩ <;>
    simp [renderCond, String.data_append, sqS_data, escapeValue_data, pct_data,
      List.append_assoc]

theorem condSk_endsC (col v1 v2 : String) (h : NoQuote col) :
    CondSk (Cond.endsC col v1) (Cond.endsC col v2) := by
  have ha : NoQuote (quoteIdent col ++ " LIKE ") :=
    noquote_append _ _ (noquote_quoteIdent col h) (by decide)
  refine ⟨(quoteIdent col ++ " LIKE ").data ++ [sqc, sqc],
    segContrib_lit (quoteIdent col ++ " LIKE ") [Char.ofNat 37] v1 [] ha
      (by decide) (by decide) _ ?_,
    segContrib_lit (quoteIdent col ++ " LIKE ") [Char.ofNat 37] v2 [] ha
      (by decide) (by decide) _ ?_⟩ <;>
    simp [renderCond, String.data_append, sqS_data, escapeValue_data, pct_data,
      List.append_assoc]

theorem condSk_notNullC (col : String) (h : NoQuote col) :
    CondSk (Cond.notNullC col) (Cond.notNullC col) := by
  have ha : NoQuote (quoteIdent col ++ " IS NOT NULL AND " ++ quoteIdent col ++ " != ") :=
    noquote_append _ _
      (noquote_append _ _ (noquote_append _ _ (noquote_quoteIdent col h) (by decide))
        (noquote_quoteIdent col h)) (by decide)
  refine ⟨(quoteIdent col ++ " IS NOT NULL AND " ++ quoteIdent col ++ " != ").data ++
      [sqc, sqc],
    segContrib_lit (quoteIdent col ++ " IS NOT NULL AND " ++ quoteIdent col ++ " != ")
      [] "" [] ha (by decide) (by decide) _ ?_,
    segContrib_lit (quoteIdent col ++ " IS NOT NULL AND " ++ quoteIdent col ++ " != ")
      [] "" [] ha (by decide) (by decide) _ ?_⟩ <;>
    simp [renderCond, String.data_append, sqS_data, escapeValue_data, escAux,
      List.append_assoc]

theorem condSk_refl_noquote (c : Cond) (h : NoQuote (renderCond c)) : CondSk c c :=
  ⟨(renderCond c).data, segContrib_noquote _ h, segContrib_noquote _ h⟩

theorem noquote_render_gtC (col v : String) (h : NoQuote col) :
    NoQuote (renderCond (Cond.gtC col v)) :=
  noquote_append _ _
    (noquote_append _ _ (noquote_append _ _ (by decide) (noquote_quoteIdent col h))
      (by decide)) (noquote_jsParseFloatStr v)

theorem noquote_render_ltC (col v : String) (h : NoQuote col) :
    NoQuote (renderCond (Cond.ltC col v)) :=
  noquote_append _ _
    (noquote_append _ _ (noquote_append _ _ (by decide) (noquote_quoteIdent col h))
      (by decide)) (noquote_jsParseFloatStr v)

theorem noquote_render_geC (col v : String) (h : NoQuote col) :
    NoQuote (renderCond (Cond.geC col v)) :=
  noquote_append _ _
    (noquote_append _ _ (noquote_append _ _ (by decide) (noquote_quoteIdent col h))
      (by decide)) (noquote_jsParseFloatStr v)

theorem noquote_render_leC (col v : String) (h : NoQuote col) :
    NoQuote (renderCond (Cond.leC col v)) :=
  noquote_append _ _
    (noquote_append _ _ (noquote_append _ _ (by decide) (noquote_quoteIdent col h))
      (by decide)) (noquote_jsParseFloatStr v)

theorem noquote_render_betweenC (col v v2 : String) (h : NoQuote col) :
    NoQuote (renderCond (Cond.betweenC col v v2)) :=
  noquote_append _ _
    (noquote_append _ _
      (noquote_append _ _
        (noquote_append _ _
          (noquote_append _ _ (by decide) (noquote_quoteIdent col h)) (by decide))
        (noquote_jsParseFloatStr v))
      (by decide)) (noquote_jsParseFloatStr v2)

theorem stringOpP_decide (op : String) (h1 : ¬ op = "equals") (h2 : ¬ op = "not_equals")
    (h3 : ¬ op = "contains") (h4 : ¬ op = "starts_with") (h5 : ¬ op = "ends_with") :
    ¬ stringOpP op := by
  intro hs
  rcases hs with h | h | h | h | h
  · exact h1 h
  · exact h2 h
  · exact h3 h
  · exact h4 h
  · exact h5 h

theorem ruleCond_condSk (f1 f2 : FilterRule) (hv : quoteVariant f1 f2)
    (hq : NoQuote f1.field) :
    List.Forall₂ CondSk (ruleCond f1) (ruleCond f2) := by
  obtain ⟨hfield, hop, hv2, hemp, hnum⟩ := hv
  by_cases h1 : f1.field = "" ∨ f1.value = ""
  · have h2 : f2.field = "" ∨ f2.value = "" := by
      rcases h1 with h | h
      · exact Or.inl (hfield.symm.trans h)
      · exact Or.inr (hemp.mp h)
    rw [show ruleCond f1 = [] from by simp [ruleCond, h1],
      show ruleCond f2 = [] from by simp [ruleCond, h2]]
    exact List.Forall₂.nil
  · have h2 : ¬(f2.field = "" ∨ f2.value = "") := by
      push_neg at h1 ⊢
      exact ⟨fun hh => h1.1 (hfield.trans hh), fun hh => h1.2 (hemp.mpr hh)⟩
    have heq2 : (if f2.operator = "" then "equals" else f2.operator) =
        (if f1.operator = "" then "equals" else f1.operator) := by rw [hop]
    by_cases e1 : (if f1.operator = "" then "equals" else f1.operator) = "equals"
    · rw [show ruleCond f1 = [Cond.eqC f1.field f1.value] from by simp [ruleCond, h1, e1],
        show ruleCond f2 = [Cond.eqC f2.field f2.value] from by
          simp [ruleCond, h2, heq2, e1]]
      rw [← hfield]
      exact List.Forall₂.cons (condSk_eqC f1.field _ _ hq) List.Forall₂.nil
    · by_cases e2 : (if f1.operator = "" then "equals" else f1.operator) = "not_equals"
      · rw [show ruleCond f1 = [Cond.neC f1.field f1.value] from by
            simp [ruleCond, h1, e2],
          show ruleCond f2 = [Cond.neC f2.field f2.value] from by
            simp [ruleCond, h2, heq2, e2]]
        rw [← hfield]
        exact List.Forall₂.cons (condSk_neC f1.field _ _ hq) List.Forall₂.nil
      · by_cases e3 : (if f1.operator = "" then "equals" else f1.operator) = "greater_than"
        · have hns : ¬ stringOpP (effOp f1) := by
            rw [show effOp f1 = "greater_than" from e3]
            exact stringOpP_decide _ (by decide) (by decide) (by decide) (by decide)
              (by decide)
          have hvv := hnum hns
          rw [show ruleCond f1 = [Cond.gtC f1.field f1.value] from by
              simp [ruleCond, h1, e3],
            show ruleCond f2 = [Cond.gtC f2.field f2.value] from by
              simp [ruleCond, h2, heq2, e3]]
          rw [← hfield, ← hvv]
          exact List.Forall₂.cons
            (condSk_refl_noquote _ (noquote_render_gtC f1.field f1.value hq))
            List.Forall₂.nil
        · by_cases e4 : (if f1.operator = "" then "equals" else f1.operator) = "less_than"
          · have hns : ¬ stringOpP (effOp f1) := by
              rw [show effOp f1 = "less_than" from e4]
              exact stringOpP_decide _ (by decide) (by decide) (by decide) (by decide)
                (by decide)
            have hvv := hnum hns
            rw [show ruleCond f1 = [Cond.ltC f1.field f1.value] from by
                simp [ruleCond, h1, e4],
              show ruleCond f2 = [Cond.ltC f2.field f2.value] from by
                simp [ruleCond, h2, heq2, e4]]
            rw [← hfield, ← hvv]
            exact List.Forall₂.cons
              (condSk_refl_noquote _ (noquote_render_ltC f1.field f1.value hq))
              List.Forall₂.nil
          · by_cases e5 :
              (if f1.operator = "" then "equals" else f1.operator) = "greater_or_equal"
            · have hns : ¬ stringOpP (effOp f1) := by
                rw [show effOp f1 = "greater_or_equal" from e5]
                exact stringOpP_decide _ (by decide) (by decide) (by decide) (by decide)
                  (by decide)
              have hvv := hnum hns
              rw [show ruleCond f1 = [Cond.geC f1.field f1.value] from by
                  simp [ruleCond, h1, e5],
                show ruleCond f2 = [Cond.geC f2.field f2.value] from by
                  simp [ruleCond, h2, heq2, e5]]
              rw [← hfield, ← hvv]
              exact List.Forall₂.cons
                (condSk_refl_noquote _ (noquote_render_geC f1.field f1.value hq))
                List.Forall₂.nil
            · by_cases e6 :
                (if f1.operator = "" then "equals" else f1.operator) = "less_or_equal"
              · have hns : ¬ stringOpP (effOp f1) := by
                  rw [show effOp f1 = "less_or_equal" from e6]
                  exact stringOpP_decide _ (by decide) (by decide) (by decide) (by decide)
                    (by decide)
                have hvv := hnum hns
                rw [show ruleCond f1 = [Cond.leC f1.field f1.value] from by
                    simp [ruleCond, h1, e6],
                  show ruleCond f2 = [Cond.leC f2.field f2.value] from by
                    simp [ruleCond, h2, heq2, e6]]
                rw [← hfield, ← hvv]
                exact List.Forall₂.cons
                  (condSk_refl_noquote _ (noquote_render_leC f1.field f1.value hq))
                  List.Forall₂.nil
              · by_cases e7 :
                  (if f1.operator = "" then "equals" else f1.operator) = "between"
                · have hns : ¬ stringOpP (effOp f1) := by
                    rw [show effOp f1 = "between" from e7]
                    exact stringOpP_decide _ (by decide) (by decide) (by decide)
                      (by decide) (by decide)
                  have hvv := hnum hns
                  cases hvc : f1.value2 with
                  | none =>
                      rw [show ruleCond f1 = [] from by simp [ruleCond, h1, e7, hvc],
                        show ruleCond f2 = [] from by
                          simp [ruleCond, h2, heq2, e7, ← hv2, hvc]]
                      exact List.Forall₂.nil
                  | some w =>
                      by_cases hw : w = ""
                      · rw [show ruleCond f1 = [] from by
                            simp [ruleCond, h1, e7, hvc, hw],
                          show ruleCond f2 = [] from by
                            simp [ruleCond, h2, heq2, e7, ← hv2, hvc, hw]]
                        exact List.Forall₂.nil
                      · rw [show ruleCond f1 = [Cond.betweenC f1.field f1.value w] from by
                            simp [ruleCond, h1, e7, hvc, hw],
                          show ruleCond f2 = [Cond.betweenC f2.field f2.value w] from by
                            simp [ruleCond, h2, heq2, e7, ← hv2, hvc, hw]]
                        rw [← hfield, ← hvv]
                        exact List.Forall₂.cons
                          (condSk_refl_noquote _
                            (noquote_render_betweenC f1.field f1.value w hq))
                          List.Forall₂.nil
                · by_cases e8 :
                    (if f1.operator = "" then "equals" else f1.operator) = "contains"
                  · rw [show ruleCond f1 = [Cond.containsC f1.field f1.value] from by
                        simp [ruleCond, h1, e8],
                      show ruleCond f2 = [Cond.containsC f2.field f2.value] from by
                        simp [ruleCond, h2, heq2, e8]]
                    rw [← hfield]
                    exact List.Forall₂.cons (condSk_containsC f1.field _ _ hq)
                      List.Forall₂.nil
                  · by_cases e9 :
                      (if f1.operator = "" then "equals" else f1.operator) = "starts_with"
                    · rw [show ruleCond f1 = [Cond.startsC f1.field f1.value] from by
                          simp [ruleCond, h1, e9],
                        show ruleCond f2 = [Cond.startsC f2.field f2.value] from by
                          simp [ruleCond, h2, heq2, e9]]
                      rw [← hfield]
                      exact List.Forall₂.cons (condSk_startsC f1.field _ _ hq)
                        List.Forall₂.nil
                    · by_cases e10 :
                        (if f1.operator = "" then "equals" else f1.operator) = "ends_with"
                      · rw [show ruleCond f1 = [Cond.endsC f1.field f1.value] from by
                            simp [ruleCond, h1, e10],
                          show ruleCond f2 = [Cond.endsC f2.field f2.value] from by
                            simp [ruleCond, h2, heq2, e10]]
                        rw [← hfield]
                        exact List.Forall₂.cons (condSk_endsC f1.field _ _ hq)
                          List.Forall₂.nil
                      · rw [show ruleCond f1 = [] from by
                            simp [ruleCond, h1, e1, e2, e3, e4, e5, e6, e7, e8, e9, e10],
                          show ruleCond f2 = [] from by
                            simp [ruleCond, h2, heq2, e1, e2, e3, e4, e5, e6, e7, e8,
                              e9, e10]]
                        exact List.Forall₂.nil

theorem forall2_flatMap_ruleCond (l1 l2 : List FilterRule)
    (hvar : List.Forall₂ quoteVariant l1 l2) (hq : ∀ f ∈ l1, NoQuote f.field) :
    List.Forall₂ CondSk (l1.flatMap ruleCond) (l2.flatMap ruleCond) := by
  induction hvar with
  | nil => exact List.Forall₂.nil
  | cons hc ht ih =>
      simp only [List.flatMap_cons]
      exact List.rel_append (ruleCond_condSk _ _ hc (hq _ (List.mem_cons_self _ _)))
        (ih (fun f hf => hq f (List.mem_cons_of_mem _ hf)))

theorem forall2_dimConds (dims : List String) (hq : ∀ c ∈ dims, NoQuote c) :
    List.Forall₂ CondSk (dims.map Cond.notNullC) (dims.map Cond.notNullC) := by
  refine List.forall₂_same.mpr ?_
  intro x hx
  rcases List.mem_map.mp hx with ⟨col, hcol, rfl⟩
  exact condSk_notNullC col (hq col hcol)

theorem segContrib_join_and (l1 l2 : List Cond) (h : List.Forall₂ CondSk l1 l2) :
    ∃ sk, SegContrib (joinSep " AND " (l1.map renderCond)) sk ∧
      SegContrib (joinSep " AND " (l2.map renderCond)) sk := by
  induction h with
  | nil =>
      refine ⟨[], ?_, ?_⟩ <;> (intro rest _; rfl)
  | @cons a b t1 t2 hc ht ih =>
      obtain ⟨sk, h1, h2⟩ := hc
      cases ht with
      | nil => exact ⟨sk, h1, h2⟩
      | @cons a2 b2 t12 t22 hc2 ht2 =>
          obtain ⟨skt, hj1, hj2⟩ := ih
          refine ⟨sk ++ ((" AND " : String).data ++ skt), ?_, ?_⟩
          · intro rest hrest
            rw [show joinSep " AND " ((a :: a2 :: t12).map renderCond) =
                renderCond a ++ " AND " ++ joinSep " AND " ((a2 :: t12).map renderCond)
              from rfl]
            rw [String.data_append, String.data_append, List.append_assoc,
              List.append_assoc]
            rw [h1 ((" AND " : String).data ++
              ((joinSep " AND " ((a2 :: t12).map renderCond)).data ++ rest)) rfl]
            rw [skelAux_false_noquote (" AND " : String).data (by decide)]
            rw [hj1 rest hrest]
            simp [List.append_assoc]
          · intro rest hrest
            rw [show joinSep " AND " ((b :: b2 :: t22).map renderCond) =
                renderCond b ++ " AND " ++ joinSep " AND " ((b2 :: t22).map renderCond)
              from rfl]
            rw [String.data_append, String.data_append, List.append_assoc,
              List.append_assoc]
            rw [h2 ((" AND " : String).data ++
              ((joinSep " AND " ((b2 :: t22).map renderCond)).data ++ rest)) rfl]
            rw [skelAux_false_noquote (" AND " : String).data (by decide)]
            rw [hj2 rest hrest]
            simp [List.append_assoc]

theorem segContrib_where (c1 c2 : List Cond) (h : List.Forall₂ CondSk c1 c2) :
    ∃ sk, SegContrib (whereClauseStr c1) sk ∧ SegContrib (whereClauseStr c2) sk := by
  cases h with
  | nil =>
      refine ⟨[], ?_, ?_⟩ <;> (intro rest _; rfl)
  | @cons a b t1 t2 hc ht =>
      obtain ⟨sk, h1, h2⟩ := segContrib_join_and (a :: t1) (b :: t2)
        (List.Forall₂.cons hc ht)
      refine ⟨("WHERE " : String).data ++ sk, ?_, ?_⟩
      · rw [show whereClauseStr (a :: t1) =
            "WHERE " ++ joinSep " AND " ((a :: t1).map renderCond) from by
          simp [whereClauseStr]]
        exact segContrib_prepend _ _ (by decide) _ h1
      · rw [show whereClauseStr (b :: t2) =
            "WHERE " ++ joinSep " AND " ((b :: t2).map renderCond) from by
          simp [whereClauseStr]]
        exact segContrib_prepend _ _ (by decide) _ h2


theorem compilePivot_sql_data (req : PivotRequest) :
    (compilePivot req).sql.data =
      ("SELECT " : String).data ++
        ((joinSep ", " ((req.rows ++ req.columns).map quoteIdent)).data ++
          ((if selectValuesStr (effValues req) = "" then ""
              else ", " ++ selectValuesStr (effValues req) : String).data ++
            ((" FROM view_unified " : String).data ++
              ((whereClauseStr (compilePivot req).conds).data ++
                ((" GROUP BY " : String).data ++
                  ((joinSep ", " ((req.rows ++ req.columns).map quoteIdent)).data ++
                    ((" ORDER BY " : String).data ++
                      ((((selectValuesStr (effValues req)).splitOn " as ").headD "").data ++
                        (" DESC LIMIT 10000" : String).data)))))))) := by
  simp [compilePivot, String.data_append, List.append_assoc]

/-- C6: the compiled pivot queries of two requests that agree on rows,
columns and values, and whose filter rule lists differ at most in the
values of string-literal operators (same fields, operators, bounds and
inertness), have the same quote skeleton: the rule values, including any
embedded quote characters, can change the query only inside single-quoted
string literals, never its structure, because escapeValue doubles every
embedded quote. -/
theorem c6_values_change_only_literals (req1 req2 : PivotRequest)
    (l1 l2 : List FilterRule)
    (hf1 : req1.filters = Filters.rules l1) (hf2 : req2.filters = Filters.rules l2)
    (hrows : req2.rows = req1.rows) (hcols : req2.columns = req1.columns)
    (hvals : req2.values = req1.values)
    (hvar : List.Forall₂ quoteVariant l1 l2)
    (hqf : ∀ f ∈ l1, NoQuote f.field)
    (hqd : ∀ c ∈ req1.rows ++ req1.columns, NoQuote c)
    (hqv : ∀ v ∈ effValues req1, NoQuote v.column) :
    sqlSkeleton (compilePivot req1).sql = sqlSkeleton (compilePivot req2).sql := by
  have hev : effValues req2 = effValues req1 := by
    unfold effValues
    rw [hvals]
  have hdims : req2.rows ++ req2.columns = req1.rows ++ req1.columns := by
    rw [hrows, hcols]
  have hcs : List.Forall₂ CondSk (compilePivot req1).conds (compilePivot req2).conds := by
    have hc1 : (compilePivot req1).conds =
        l1.flatMap ruleCond ++ (req1.rows ++ req1.columns).map Cond.notNullC := by
      show filterConds req1.filters ++ _ = _
      rw [hf1]
      rfl
    have hc2 : (compilePivot req2).conds =
        l2.flatMap ruleCond ++ (req1.rows ++ req1.columns).map Cond.notNullC := by
      show filterConds req2.filters ++ _ = _
      rw [hf2, hdims]
      rfl
    rw [hc1, hc2]
    exact List.rel_append (forall2_flatMap_ruleCond l1 l2 hvar hqf)
      (forall2_dimConds _ hqd)
  obtain ⟨skW, hW1, hW2⟩ := segContrib_where _ _ hcs
  have hsd : NoQuote (joinSep ", " ((req1.rows ++ req1.columns).map quoteIdent)) := by
    refine noquote_joinSep _ _ (by decide) ?_
    intro a ha
    rcases List.mem_map.mp ha with ⟨col, hcol, rfl⟩
    exact noquote_quoteIdent col (hqd col hcol)
  have hsv : NoQuote (selectValuesStr (effValues req1)) := noquote_selectValuesStr _ hqv
  have hifp : NoQuote ((if selectValuesStr (effValues req1) = "" then ""
      else ", " ++ selectValuesStr (effValues req1) : String)) := by
    by_cases hc : selectValuesStr (effValues req1) = ""
    · rw [if_pos hc]
      exact (by decide : NoQuote "")
    · rw [if_neg hc]
      exact noquote_append _ _ (by decide) hsv
  unfold sqlSkeleton
  rw [compilePivot_sql_data req1, compilePivot_sql_data req2, hdims, hev]
  simp only [skelAux_false_noquote ("SELECT " : String).data (by decide),
    skelAux_false_noquote _ hsd, skelAux_false_noquote _ hifp,
    skelAux_false_noquote (" FROM view_unified " : String).data (by decide)]
  rw [hW1 ((" GROUP BY " : String).data ++
      ((joinSep ", " ((req1.rows ++ req1.columns).map quoteIdent)).data ++
        ((" ORDER BY " : String).data ++
          ((((selectValuesStr (effValues req1)).splitOn " as ").headD "").data ++
            (" DESC LIMIT 10000" : String).data)))) rfl,
    hW2 ((" GROUP BY " : String).data ++
      ((joinSep ", " ((req1.rows ++ req1.columns).map quoteIdent)).data ++
        ((" ORDER BY " : String).data ++
          ((((selectValuesStr (effValues req1)).splitOn " as ").headD "").data ++
            (" DESC LIMIT 10000" : String).data)))) rfl]

def c6Req1 : PivotRequest :=
  ⟨["merk"], [], [], Filters.rules [⟨"merk", "equals", "a" ++ sqS ++ "b", none⟩]⟩

def c6Req2 : PivotRequest :=
  ⟨["merk"], [], [], Filters.rules [⟨"merk", "equals", "ab", none⟩]⟩

theorem c6_values_change_only_literals_witness :
    sqlSkeleton (compilePivot c6Req1).sql = sqlSkeleton (compilePivot c6Req2).sql :=
  c6_values_change_only_literals c6Req1 c6Req2
    [⟨"merk", "equals", "a" ++ sqS ++ "b", none⟩] [⟨"merk", "equals", "ab", none⟩]
    rfl rfl rfl rfl rfl
    (List.Forall₂.cons
      ⟨rfl, rfl, rfl, by decide, fun hns => absurd (Or.inl (by decide)) hns⟩
      List.Forall₂.nil)
    (by decide) (by decide) (by decide)
